import Mathlib

/-!
Shallow embedding of the Proxmox `qmeventd` daemon
(src/qmeventd/qmeventd.c together with src/qmeventd/qmeventd.h):
the per-connection QMP client state machine, the VMID registry
(`vm_clients`), the termination escalator with its per-client kill
deadlines (`terminate_client`, `sigkill`, `handle_forced_cleanup`),
the cleanup executor (`cleanup_client`, `cleanup_qemu_client`), and the
incremental message-framing loop of `handle_client`.

Modelling conventions:
* A `struct Client ` on the daemon heap is identified by a numeric
  connection id `cid`; `World.clients` is the set of live client objects
  (id-indexed association list), mirroring pointer identity.  The C
  field `fd` is subsumed by the id; the per-connection read buffer
  (`buf`/`buflen`) is treated in the decoder section.
* External inputs (success of `write`, results of `pidfd_open`,
  `get_vmid_from_pid`, success of `fork`) are an oracle `Env`.
* Observable side effects (QMP writes, signals, exec of the cleanup
  script, closing sockets, stderr messages) are collected in a list of
  `Effect` values in execution order.
* Machine integers: `vmid` is an `unsigned long` rendered in decimal by
  `snprintf`; flags `graceful`/`guest` are `unsigned short` that only
  ever hold 0 or 1 (calloc initialisation, literal `1`, and a cast of a
  `json_bool`), so they are modelled as `Bool`.  `time_t` values are
  modelled as `Nat` (`timeout = 0` is the "not set" sentinel, exactly as
  in `sigkill`).
* `json-c` and GLib are external libraries; their operations
  (`json_object_object_get_ex`, `json_object_get_boolean`,
  `json_object_get_string`, `g_hash_table_insert` and friends) are
  modelled from their documented semantics.
-/

namespace Qmeventd

/-- JSON values as produced by the json-c tokener.  The daemon never
inspects floating point values, so `double` payloads are omitted
(arrays/objects/etc. cover every shape the handlers distinguish). -/
inductive JValue where
  | null : JValue
  | jbool (b : Bool) : JValue
  | jint (n : Int) : JValue
  | jstr (s : String) : JValue
  | jarr (xs : List JValue) : JValue
  | jobj (fields : List (String × JValue)) : JValue

/-- Member lookup in a JSON object: json-c `json_object_object_get_ex`.
Returns `none` when the value is not an object or the key is absent. -/
def json_object_object_get_ex (v : JValue) (key : String) : Option JValue :=
  match v with
  | .jobj fields => go fields
  | _ => none
where go : List (String × JValue) → Option JValue
  | [] => none
  | (k, x) :: rest => if k = key then some x else go rest

/-- json-c `json_object_get_boolean`: booleans are returned as is,
integers compare against zero, strings against the empty string; every
other shape (null, arrays, objects; doubles do not occur in the model)
yields `FALSE`. -/
def json_object_get_boolean : JValue → Bool
  | .jbool b => b
  | .jint n => n ≠ 0
  | .jstr s => s ≠ ""
  | _ => false

/-- json-c `json_object_get_string`: the raw string for string values,
otherwise the JSON serialisation of the value (never NULL for a live
object).  Scalars are serialised exactly; for arrays and objects we keep
only the leading bracket of the serialisation, which settles every
comparison the daemon performs (event names, status values and registry
keys never begin with a bracket character). -/
def json_object_get_string : JValue → String
  | .null => "null"
  | .jbool true => "true"
  | .jbool false => "false"
  | .jint n => toString n
  | .jstr s => s
  | .jarr _ => "["
  | .jobj _ => "\x7b"

/-- `ClientType` from qmeventd.h. -/
inductive ClientType where
  | CLIENT_NONE : ClientType
  | CLIENT_QEMU : ClientType
  | CLIENT_VZDUMP : ClientType
deriving DecidableEq, Repr

/-- `ClientState` from qmeventd.h. -/
inductive ClientState where
  | STATE_HANDSHAKE : ClientState
  | STATE_IDLE : ClientState
  | STATE_EXPECT_STATUS_RESP : ClientState
  | STATE_TERMINATING : ClientState
deriving DecidableEq, Repr

/-- The `qemu` payload of `struct Client ` (only relevant for
type=CLIENT_QEMU). -/
structure QemuState where
  vmid : String
  graceful : Bool
  guest : Bool
  term_check_queued : Bool
  backup : Bool
deriving DecidableEq, Repr

/-- One `struct Client `.  The socket fd is identified with the client id;
the read buffer is handled separately in the decoder section. -/
structure Client where
  pid : Nat
  type : ClientType
  state : ClientState
  qemu : QemuState
  vzdump_vmid : String
  pidfd : Int
  timeout : Nat
deriving DecidableEq, Repr

/-- A fresh client as produced by `add_new_client`: `calloc` zeroes every
field, then state/type/pid are set. -/
def newClient (pid : Nat) : Client :=
  { pid := pid
    type := .CLIENT_NONE
    state := .STATE_HANDSHAKE
    qemu := { vmid := "", graceful := false, guest := false,
              term_check_queued := false, backup := false }
    vzdump_vmid := ""
    pidfd := 0
    timeout := 0 }

/-- The QMP commands the daemon ever writes, with their exact wire
strings from qmeventd.c. -/
inductive QmpCmd where
  | qmp_capabilities : QmpCmd
  | query_status : QmpCmd
  | quit : QmpCmd
deriving DecidableEq, Repr

/-- Wire form of each command (`qmp_answer`, `qmp_req`,
`qmp_quit_command` in the C source). -/
def QmpCmd.wire : QmpCmd → String
  | .qmp_capabilities => "\x7b\"execute\":\"qmp_capabilities\"\x7d\n"
  | .query_status => "\x7b\"execute\":\"query-status\"\x7d\n"
  | .quit => "\x7b\"execute\":\"quit\"\x7d\n"

/-- Observable side effects, in execution order. -/
inductive Effect where
  | qmpWrite (cid : Nat) (cmd : QmpCmd) : Effect
  | execCleanup (vmid graceful guest : String) : Effect
  | sigterm (pid : Nat) : Effect
  | sigkillPidfd (pidfd : Int) : Effect
  | sigkillPid (pid : Nat) : Effect
  | closeFd (cid : Nat) : Effect
  | log (msg : String) : Effect
deriving DecidableEq, Repr

/-- Global daemon state: the live clients, the `vm_clients` hash table
(VMID string to client), the `forced_cleanups` GSList (client ids,
newest first), the configured `kill_timeout`, the current `time(NULL)`
and the `needs_cleanup` flag. -/
structure World where
  clients : List (Nat × Client)
  vm_clients : List (String × Nat)
  forced_cleanups : List Nat
  kill_timeout : Nat
  now : Nat
  needs_cleanup : Bool
deriving DecidableEq, Repr

/-- Environment oracle for the external inputs of one dispatch step. -/
structure Env where
  /-- whether `must_write` on this connection succeeds -/
  writeOk : Nat → Bool
  /-- `get_vmid_from_pid` (0 on failure, as in the C code) -/
  vmid_of_pid : Nat → Nat
  /-- result of `pidfd_open` for a pid (file descriptor or negative) -/
  pidfd_of : Nat → Int
  /-- errno after a failed `pidfd_open` -/
  pidfd_errno : Nat → Nat
  /-- whether `fork` in `cleanup_qemu_client` succeeds -/
  forkOk : Bool

def ESRCH : Nat := 3

def ENOSYS : Nat := 38

/-- Dereference a client pointer: look an id up in the live-client list. -/
def lookupId : List (Nat × Client) → Nat → Option Client
  | [], _ => none
  | (i, c) :: rest, cid => if i = cid then some c else lookupId rest cid

/-- Overwrite the object a client pointer refers to (first entry with the
given id). -/
def setId : List (Nat × Client) → Nat → Client → List (Nat × Client)
  | [], _, _ => []
  | (i, c) :: rest, cid, c' =>
      if i = cid then (i, c') :: rest else (i, c) :: setId rest cid c'

/-- Free a client object (first entry with the given id). -/
def eraseId : List (Nat × Client) → Nat → List (Nat × Client)
  | [], _ => []
  | (i, c) :: rest, cid =>
      if i = cid then rest else (i, c) :: eraseId rest cid

/-- `g_hash_table_lookup` on `vm_clients`. -/
def lookupVm : List (String × Nat) → String → Option Nat
  | [], _ => none
  | (k, v) :: rest, key => if k = key then some v else lookupVm rest key

/-- Value replacement for an existing hash-table key. -/
def replaceVm : List (String × Nat) → String → Nat → List (String × Nat)
  | [], _, _ => []
  | (k, v) :: rest, key, v' =>
      if k = key then (k, v') :: rest else (k, v) :: replaceVm rest key v'

/-- `g_hash_table_insert`: inserts the pair, replacing the value (and
keeping the old key) when the key is already present; returns GLib
`TRUE` exactly when the key did not exist yet. -/
def g_hash_table_insert (tbl : List (String × Nat)) (key : String) (v : Nat) :
    List (String × Nat) × Bool :=
  match lookupVm tbl key with
  | some _ => (replaceVm tbl key v, false)
  | none => ((key, v) :: tbl, true)

/-- `g_hash_table_remove` on `vm_clients` (idempotent). -/
def eraseVm : List (String × Nat) → String → List (String × Nat)
  | [], _ => []
  | (k, v) :: rest, key => if k = key then rest else (k, v) :: eraseVm rest key

/-- `g_slist_remove`: removes the first matching link. -/
def eraseNat : List Nat → Nat → List Nat
  | [], _ => []
  | x :: rest, y => if x = y then rest else x :: eraseNat rest y

def World.getClient (w : World) (cid : Nat) : Option Client :=
  lookupId w.clients cid

def World.setClient (w : World) (cid : Nat) (c : Client) : World :=
  { w with clients := setId w.clients cid c }

/-- `terminate_client` (qmeventd.c:467-510): set STATE_TERMINATING, open
a pidfd (stopping early when the process is already gone, errno ESRCH),
try the QMP `quit` command, falling back to SIGTERM on a failed write,
and record the per-client kill deadline `time(NULL) + kill_timeout` in
the `forced_cleanups` list. -/
def terminate_client (env : Env) (w : World) (cid : Nat) : World × List Effect :=
  match w.getClient cid with
  | none => (w, [])
  | some c =>
    let c1 := { c with state := .STATE_TERMINATING }
    let w1 := w.setClient cid c1
    let pidfd := env.pidfd_of c.pid
    if pidfd < 0 ∧ env.pidfd_errno c.pid = ESRCH then
      (w1, [])
    else
      let es := if env.writeOk cid then [Effect.qmpWrite cid .quit]
                else [Effect.sigterm c.pid]
      let c2 := { c1 with pidfd := pidfd, timeout := w.now + w.kill_timeout }
      let w2 := w1.setClient cid c2
      ({ w2 with forced_cleanups := cid :: w2.forced_cleanups,
                 needs_cleanup := true }, es)

/-- `sigkill` (qmeventd.c:582-614): the per-entry body of the forced
cleanup sweep.  An entry whose own deadline has not yet elapsed is left
alone; otherwise the process is SIGKILLed through the stable pidfd when
one is held (else by pid), the deadline is cleared and the entry removes
itself from `forced_cleanups`. -/
def sigkill (t : Nat) (w : World) (cid : Nat) : World × List Effect :=
  match w.getClient cid with
  | none => (w, [])
  | some c =>
    if c.timeout ≠ 0 ∧ t < c.timeout then
      (w, [])
    else
      let (c1, ef) :=
        if c.pidfd > 0 then ({ c with pidfd := -1 }, Effect.sigkillPidfd c.pidfd)
        else (c, Effect.sigkillPid c.pid)
      let c2 := { c1 with timeout := 0 }
      let w1 := w.setClient cid c2
      ({ w1 with forced_cleanups := eraseNat w1.forced_cleanups cid }, [ef])

/-- `g_slist_foreach(forced_cleanups, sigkill, &cur_time)`: GSList
foreach caches the next link before the callback runs, so iterating the
snapshot while `sigkill` unlinks the current entry is exactly a fold
over the snapshot list. -/
def sweep (t : Nat) (w : World) : List Nat → World × List Effect
  | [] => (w, [])
  | cid :: rest =>
      let (w1, es1) := sigkill t w cid
      let (w2, es2) := sweep t w1 rest
      (w2, es1 ++ es2)

/-- `handle_forced_cleanup` (qmeventd.c:616-625). -/
def handle_forced_cleanup (t : Nat) (w : World) : World × List Effect :=
  let (w1, es) :=
    if 0 < w.forced_cleanups.length then sweep t w w.forced_cleanups else (w, [])
  ({ w1 with needs_cleanup := 0 < w1.forced_cleanups.length }, es)

/-- `cleanup_qemu_client` (qmeventd.c:399-431): copy the flags, drop the
registry entry, then fork and exec `/usr/sbin/qm cleanup VMID G1 G2`
(a failed fork only logs). -/
def cleanup_qemu_client (env : Env) (w : World) (cid : Nat) : World × List Effect :=
  match w.getClient cid with
  | none => (w, [])
  | some c =>
    let w1 := { w with vm_clients := eraseVm w.vm_clients c.qemu.vmid }
    if env.forkOk then
      (w1, [Effect.execCleanup c.qemu.vmid
              (if c.qemu.graceful then "1" else "0")
              (if c.qemu.guest then "1" else "0")])
    else
      (w1, [Effect.log "fork failed"])

mutual

/-- `send_qmp_cmd` (qmeventd.c:171-178): a failed `must_write` logs and
tears the connection down via `cleanup_client`.  The fuel argument only
bounds the `send - cleanup - terminate_check` recursion; every theorem
below holds for all sufficiently large fuel. -/
def send_qmp_cmd (fuel : Nat) (env : Env) (w : World) (cid : Nat)
    (cmd : QmpCmd) : World × List Effect :=
  match fuel with
  | 0 => (w, [])
  | fuel + 1 =>
    if env.writeOk cid then (w, [Effect.qmpWrite cid cmd])
    else
      let (w1, es) := cleanup_client fuel env w cid
      (w1, Effect.log "cannot send QMP message" :: es)

/-- `cleanup_client` (qmeventd.c:433-465): close the socket, run the
role-specific teardown (QEMU: exec the cleanup script; VZDUMP: clear the
backup flag of the target VM if still registered and re-run its
termination check; NONE: nothing), then drop the client from
`forced_cleanups` and free it. -/
def cleanup_client (fuel : Nat) (env : Env) (w : World) (cid : Nat) :
    World × List Effect :=
  match fuel with
  | 0 => (w, [])
  | fuel + 1 =>
    match w.getClient cid with
    | none => (w, [])
    | some c =>
      let (w1, es1) :=
        match c.type with
        | .CLIENT_QEMU => cleanup_qemu_client env w cid
        | .CLIENT_VZDUMP =>
          match lookupVm w.vm_clients c.vzdump_vmid with
          | some vmcid =>
            match w.getClient vmcid with
            | some vmc =>
              let w' := w.setClient vmcid
                  { vmc with qemu := { vmc.qemu with backup := false } }
              terminate_check fuel env w' vmcid
            | none => (w, [])
          | none => (w, [])
        | .CLIENT_NONE => (w, [])
      let w2 := { w1 with forced_cleanups := eraseNat w1.forced_cleanups cid,
                          clients := eraseId w1.clients cid }
      (w2, Effect.closeFd cid :: es1)

/-- `terminate_check` (qmeventd.c:237-253): outside STATE_IDLE only the
recheck flag is queued; in STATE_IDLE the flag is cleared, the state
moves to STATE_EXPECT_STATUS_RESP and one `query-status` is sent. -/
def terminate_check (fuel : Nat) (env : Env) (w : World) (cid : Nat) :
    World × List Effect :=
  match fuel with
  | 0 => (w, [])
  | fuel + 1 =>
    match w.getClient cid with
    | none => (w, [])
    | some c =>
      if c.state ≠ .STATE_IDLE then
        (w.setClient cid
           { c with qemu := { c.qemu with term_check_queued := true } }, [])
      else
        let c1 := { c with qemu := { c.qemu with term_check_queued := false },
                           state := .STATE_EXPECT_STATUS_RESP }
        send_qmp_cmd fuel env (w.setClient cid c1) cid .query_status

end

/-- `handle_qmp_handshake` (qmeventd.c:180-204): resolve the VMID from
the peer pid (snprintf writes the possibly truncated decimal rendering
into `qemu.vmid` before the validity check), tear down on failure,
otherwise classify as CLIENT_QEMU, insert into `vm_clients` (logging
when the key already existed) and answer with `qmp_capabilities`. -/
def handle_qmp_handshake (fuel : Nat) (env : Env) (w : World) (cid : Nat) :
    World × List Effect :=
  match w.getClient cid with
  | none => (w, [])
  | some c =>
    let vmid := env.vmid_of_pid c.pid
    let s := toString vmid
    let c0 := { c with qemu := { c.qemu with vmid := s.take 15 } }
    if vmid = 0 ∨ 16 ≤ s.length then
      let (w1, es) := cleanup_client fuel env (w.setClient cid c0) cid
      (w1, Effect.log "could not get vmid from pid" :: es)
    else
      let c1 := { c0 with type := .CLIENT_QEMU }
      let (tbl, fresh) := g_hash_table_insert w.vm_clients s cid
      let w1 := { w.setClient cid c1 with vm_clients := tbl }
      let es0 := if fresh then []
                 else [Effect.log "could not insert client into VMID table"]
      let (w2, es1) := send_qmp_cmd fuel env w1 cid .qmp_capabilities
      (w2, es0 ++ es1)

/-- The guest-flag extraction of `handle_qmp_event` (qmeventd.c:224-230):
the flag is overwritten from `data.guest` exactly when the event payload
has a `data` member carrying a `guest` member (of any type, coerced by
`json_object_get_boolean`); otherwise the previous value is kept. -/
def shutdown_guest_value (obj : JValue) (prev : Bool) : Bool :=
  match json_object_object_get_ex obj "data" with
  | some data =>
    match json_object_object_get_ex data "guest" with
    | some guest => json_object_get_boolean guest
    | none => prev
  | none => prev

/-- `handle_qmp_event` (qmeventd.c:206-235): events are dropped without
an `event` member or in STATE_TERMINATING; a SHUTDOWN event sets the
graceful flag, takes the guest flag from `data.guest` when such a member
is present (json-c boolean coercion), and runs `terminate_check`. -/
def handle_qmp_event (fuel : Nat) (env : Env) (w : World) (cid : Nat)
    (obj : JValue) : World × List Effect :=
  match w.getClient cid with
  | none => (w, [])
  | some c =>
    match json_object_object_get_ex obj "event" with
    | none => (w, [])
    | some event =>
      if c.state = .STATE_TERMINATING then (w, [])
      else if json_object_get_string event = "SHUTDOWN" then
        let g := shutdown_guest_value obj c.qemu.guest
        let c1 := { c with qemu := { c.qemu with graceful := true, guest := g } }
        terminate_check fuel env (w.setClient cid c1) cid
      else (w, [])

/-- Whether a `query-status` return reports the VM as still active
(`status` is the string "running" or "paused"), qmeventd.c:270-279. -/
def status_is_active (data : JValue) : Bool :=
  match json_object_object_get_ex data "status" with
  | some status =>
      json_object_get_string status = "running" ∨
      json_object_get_string status = "paused"
  | none => false

/-- The `out:` label of `handle_qmp_return` (qmeventd.c:311-315): a
queued termination check is re-run after any return was handled. -/
def qmp_return_out (fuel : Nat) (env : Env) (w : World) (cid : Nat)
    (es : List Effect) : World × List Effect :=
  match w.getClient cid with
  | none => (w, es)
  | some c =>
    if c.qemu.term_check_queued then
      let (w1, es1) := terminate_check fuel env w cid
      (w1, es ++ es1)
    else (w, es)

/-- `handle_qmp_return` (qmeventd.c:255-315).  An `error` return logs
and resets the state to STATE_IDLE before jumping to `out`; a success
return is interpreted according to the current state, terminating the
client from STATE_EXPECT_STATUS_RESP when the VM is inactive and no
backup is running. -/
def handle_qmp_return (fuel : Nat) (env : Env) (w : World) (cid : Nat)
    (data : JValue) (error : Bool) : World × List Effect :=
  match w.getClient cid with
  | none => (w, [])
  | some c =>
    if error then
      let w1 := w.setClient cid { c with state := .STATE_IDLE }
      qmp_return_out fuel env w1 cid [Effect.log "received error from QMP"]
    else
      let active := status_is_active data
      match c.state with
      | .STATE_EXPECT_STATUS_RESP =>
        let w1 := w.setClient cid { c with state := .STATE_IDLE }
        if active then qmp_return_out fuel env w1 cid []
        else if ¬ c.qemu.backup then
          let (w2, es) := terminate_client env w1 cid
          qmp_return_out fuel env w2 cid es
        else qmp_return_out fuel env w1 cid []
      | .STATE_HANDSHAKE =>
        qmp_return_out fuel env (w.setClient cid { c with state := .STATE_IDLE })
          cid []
      | .STATE_TERMINATING => qmp_return_out fuel env w cid []
      | .STATE_IDLE => qmp_return_out fuel env w cid []

/-- `handle_vzdump_handshake` (qmeventd.c:321-358): the state returns to
STATE_IDLE, the target VMID string is copied (truncated by snprintf)
into `vzdump.vmid` before the length check, and when the target VM is
registered its backup flag is set and the sender becomes CLIENT_VZDUMP. -/
def handle_vzdump_handshake (w : World) (cid : Nat) (data : JValue) :
    World × List Effect :=
  match w.getClient cid with
  | none => (w, [])
  | some c =>
    let c0 := { c with state := .STATE_IDLE }
    let w0 := w.setClient cid c0
    match json_object_object_get_ex data "vmid" with
    | none => (w0, [])
    | some vmid_obj =>
      let vmid_str := json_object_get_string vmid_obj
      let c1 := { c0 with vzdump_vmid := vmid_str.take 15 }
      let w1 := w0.setClient cid c1
      if 16 ≤ vmid_str.length then (w1, [])
      else
        match lookupVm w1.vm_clients vmid_str with
        | some vmcid =>
          match w1.getClient vmcid with
          | some vmc =>
            let w2 := w1.setClient vmcid
                { vmc with qemu := { vmc.qemu with backup := true } }
            match w2.getClient cid with
            | some cnow =>
              (w2.setClient cid { cnow with type := .CLIENT_VZDUMP }, [])
            | none => (w2, [])
          | none => (w1, [])
        | none => (w1, [])

/-- The dispatch switch of `handle_client` (qmeventd.c:549-562): one
decoded top-level object is routed by its distinguishing key; messages
that are no object or carry none of the keys are ignored. -/
def dispatch_message (fuel : Nat) (env : Env) (w : World) (cid : Nat)
    (j : JValue) : World × List Effect :=
  match j with
  | .jobj _ =>
    match json_object_object_get_ex j "QMP" with
    | some _ => handle_qmp_handshake fuel env w cid
    | none =>
      match json_object_object_get_ex j "event" with
      | some _ => handle_qmp_event fuel env w cid j
      | none =>
        match json_object_object_get_ex j "return" with
        | some ret => handle_qmp_return fuel env w cid ret false
        | none =>
          match json_object_object_get_ex j "error" with
          | some err => handle_qmp_return fuel env w cid err true
          | none =>
            match json_object_object_get_ex j "vzdump" with
            | some vz => handle_vzdump_handshake w cid vz
            | none => (w, [])
  | _ => (w, [])

/-! ### The decoder loop of `handle_client` (qmeventd.c:512-580)

The json-c tokener is an external resumable parser; one
`json_tokener_parse_ex` call on the buffer either completes one
top-level value (reporting the consumed byte offset `tok->char_offset`),
asks for more input (`json_tokener_continue`), or fails.  The loop body,
buffer shifting (`memmove`), oversized-buffer discard and
malformed-input discard below are translated from the C source; the
parser itself is a parameter. -/

/-- Outcome of one `json_tokener_parse_ex` call on the buffer. -/
inductive ParseResult where
  | success (offset : Nat) : ParseResult
  | cont : ParseResult
  | err : ParseResult
deriving DecidableEq, Repr

/-- `sizeof(client->buf)`. -/
def QMP_BUF_SIZE : Nat := 4096

/-- The `while (jerr == json_tokener_success && client->buflen != 0)`
loop of `handle_client`: on success the consumed bytes are shifted out
of the buffer and dispatched, and parsing continues on the remaining
bytes; on `continue` an already-full buffer is discarded (oversized
message), otherwise the loop waits for the next read; on any parse error
the buffer is discarded.  Returns the dispatched messages in order and
the remaining buffer.  The fuel is instantiated with the buffer length:
every successful parse consumes at least one byte. -/
def parse_loop (parse : List Nat → ParseResult) :
    Nat → List Nat → List (List Nat) × List Nat
  | 0, buf => ([], buf)
  | fuel + 1, buf =>
    if buf.isEmpty then ([], buf)
    else
      match parse buf with
      | .success offset =>
          let (ms, rest) := parse_loop parse fuel (buf.drop offset)
          (buf.take offset :: ms, rest)
      | .cont => if QMP_BUF_SIZE ≤ buf.length then ([], []) else ([], buf)
      | .err => ([], [])

/-- One `handle_client` invocation after a successful `read`: the chunk
is appended to the buffered bytes and the parse loop runs. -/
def handle_client_read (parse : List Nat → ParseResult)
    (buf chunk : List Nat) : List (List Nat) × List Nat :=
  parse_loop parse (buf ++ chunk).length (buf ++ chunk)

/-- A sequence of reads delivering the chunks one by one; the
per-connection buffer persists between reads. -/
def run_reads (parse : List Nat → ParseResult) :
    List (List Nat) → List Nat → List (List Nat) × List Nat
  | [], buf => ([], buf)
  | chunk :: chunks, buf =>
      let (ms, buf1) := handle_client_read parse buf chunk
      let (ms1, buf2) := run_reads parse chunks buf1
      (ms ++ ms1, buf2)

/-- `pre b x`: `b` is a prefix of the byte list `x`. -/
def pre (b x : List Nat) : Prop := ∃ t, b ++ t = x

/-- The buffered bytes between reads are either empty at a message
boundary or a strict prefix of the next message. -/
def MidMsg (p : List Nat) (rest : List (List Nat)) : Prop :=
  match rest with
  | [] => p = []
  | m :: _ => pre p m ∧ p ≠ m

/-- Contract of the resumable parser on one well-formed message stream:
every message is nonempty and fits the buffer, and on every prefix of
every tail segment of the stream the parser completes the leading
message exactly when it is fully buffered (reporting its length as the
consumed offset) and asks for more input otherwise.  This is the
message-boundary behaviour of the json-c tokener on a stream of
newline-terminated JSON objects. -/
def segOk (parse : List Nat → ParseResult) : List (List Nat) → Bool
  | [] => true
  | m :: rest =>
      (decide (m ≠ []) && decide (m.length ≤ QMP_BUF_SIZE) &&
        (List.range ((m :: rest).flatten.length + 1)).all (fun k =>
          (decide (k = 0)) ||
          (decide (parse (((m :: rest).flatten).take k) =
            if m.length ≤ k then ParseResult.success m.length
            else ParseResult.cont)))) &&
      segOk parse rest

/-- A concrete resumable parser used to witness the decoder theorem:
messages are newline-terminated, the parser reports the offset just past
the first newline and asks for more input when none is buffered. -/
def nlparse (b : List Nat) : ParseResult :=
  match b.findIdx? (fun x => x = 10) with
  | some i => .success (i + 1)
  | none => .cont

/-! ### Concrete sample objects used by counterexamples and witnesses -/

/-- Environment in which every external operation succeeds. -/
def env0 : Env :=
  { writeOk := fun _ => true
    vmid_of_pid := fun _ => 100
    pidfd_of := fun _ => 5
    pidfd_errno := fun _ => 0
    forkOk := true }

/-- Like `env0` but every `must_write` fails. -/
def envNoWrite : Env := { env0 with writeOk := fun _ => false }

def qs0 : QemuState :=
  { vmid := "100"
    graceful := false
    guest := false
    term_check_queued := false
    backup := false }

/-- A registered QEMU client for VM 100 in the given state. -/
def cQemu (st : ClientState) (q : QemuState) : Client :=
  { pid := 42
    type := .CLIENT_QEMU
    state := st
    qemu := q
    vzdump_vmid := ""
    pidfd := 0
    timeout := 0 }

/-- A world holding exactly the given client as connection 1, registered
under VM identity 100. -/
def wOf (c : Client) : World :=
  { clients := [(1, c)]
    vm_clients := [("100", 1)]
    forced_cleanups := []
    kill_timeout := 60
    now := 1000
    needs_cleanup := false }

/-- A backup coordinator connection targeting VM 100. -/
def cVz : Client :=
  { newClient 77 with type := .CLIENT_VZDUMP, vzdump_vmid := "100" }

/-- A world where VM 100 (connection 1, idle, backup running) is
registered and a backup coordinator is connected as connection 2. -/
def wBackup : World :=
  { clients := [(1, cQemu .STATE_IDLE { qs0 with backup := true }), (2, cVz)]
    vm_clients := [("100", 1)]
    forced_cleanups := []
    kill_timeout := 60
    now := 1000
    needs_cleanup := false }

/-- A plain SHUTDOWN event without a `data` payload. -/
def shutdownMsg : JValue := .jobj [("event", .jstr "SHUTDOWN")]

/-- A successful `query-status` return reporting a running VM. -/
def runningStatus : JValue := .jobj [("status", .jstr "running")]

/-- A successful `query-status` return reporting a shut-down VM. -/
def shutdownStatus : JValue := .jobj [("status", .jstr "shutdown")]

/-- A SHUTDOWN event whose payload carries a `guest` member that is an
integer, not a boolean. -/
def shutdownGuestInt : JValue :=
  .jobj [("event", .jstr "SHUTDOWN"), ("data", .jobj [("guest", .jint 0)])]

/-- The kill effect `sigkill` produces for a client: through the stable
pidfd when one is held, else by pid. -/
def killEffectFor (c : Client) : Effect :=
  if c.pidfd > 0 then .sigkillPidfd c.pidfd else .sigkillPid c.pid

/-- An escalating client whose own kill deadline is 1060. -/
def cPending : Client :=
  { cQemu .STATE_TERMINATING qs0 with pidfd := 7, timeout := 1060 }

/-- A world with `cPending` as the only pending forced cleanup. -/
def wPending : World := { wOf cPending with forced_cleanups := [1] }

/-- Whether an effect is a launch of the external cleanup action. -/
def isExecEffect : Effect → Bool
  | .execCleanup _ _ _ => true
  | _ => false

/-- A world where VM 100 is already registered to connection 1 while a
second, still unclassified connection 2 exists. -/
def wTwo : World :=
  { clients := [(1, cQemu .STATE_IDLE qs0), (2, newClient 55)]
    vm_clients := [("100", 1)]
    forced_cleanups := []
    kill_timeout := 60
    now := 1000
    needs_cleanup := false }

end Qmeventd

namespace Qmeventd

/-! ### Helper lemmas about the id-indexed heap and the registry -/

theorem lookupId_setId_self (l : List (Nat × Client)) (cid : Nat) (c c0 : Client)
    (h : lookupId l cid = some c0) : lookupId (setId l cid c) cid = some c := by
  induction l with
  | nil => simp [lookupId] at h
  | cons hd tl ih =>
    obtain ⟨i, x⟩ := hd
    by_cases hi : i = cid
    · simp [lookupId, setId, hi]
    · simp [lookupId, setId, hi] at h ⊢
      exact ih h

theorem lookupId_setId_ne (l : List (Nat × Client)) (cid i : Nat) (c : Client)
    (h : i ≠ cid) : lookupId (setId l cid c) i = lookupId l i := by
  induction l with
  | nil => simp [setId]
  | cons hd tl ih =>
    obtain ⟨j, x⟩ := hd
    by_cases hj : j = cid
    · subst hj
      simp [lookupId, setId, Ne.symm h]
    · simp [lookupId, setId, hj]
      by_cases hji : j = i <;> simp [hji, ih]

theorem lookupId_eraseId_ne (l : List (Nat × Client)) (cid i : Nat)
    (h : i ≠ cid) : lookupId (eraseId l cid) i = lookupId l i := by
  induction l with
  | nil => simp [eraseId]
  | cons hd tl ih =>
    obtain ⟨j, x⟩ := hd
    by_cases hj : j = cid
    · subst hj
      simp [lookupId, eraseId, Ne.symm h]
    · simp [lookupId, eraseId, hj]
      by_cases hji : j = i <;> simp [hji, ih]

theorem lookupId_eq_none (l : List (Nat × Client)) (cid : Nat)
    (h : cid ∉ l.map Prod.fst) : lookupId l cid = none := by
  induction l with
  | nil => simp [lookupId]
  | cons hd tl ih =>
    obtain ⟨j, x⟩ := hd
    simp only [List.map_cons, List.mem_cons] at h
    push_neg at h
    simp [lookupId, Ne.symm h.1, ih h.2]

theorem lookupId_eraseId_self (l : List (Nat × Client)) (cid : Nat)
    (h : (l.map Prod.fst).Nodup) : lookupId (eraseId l cid) cid = none := by
  induction l with
  | nil => simp [eraseId, lookupId]
  | cons hd tl ih =>
    obtain ⟨j, x⟩ := hd
    simp only [List.map_cons, List.nodup_cons] at h
    by_cases hj : j = cid
    · subst hj
      simp only [eraseId, if_pos rfl]
      exact lookupId_eq_none tl j h.1
    · simp [eraseId, lookupId, hj, ih h.2]

theorem mapFst_setId (l : List (Nat × Client)) (cid : Nat) (c : Client) :
    (setId l cid c).map Prod.fst = l.map Prod.fst := by
  induction l with
  | nil => simp [setId]
  | cons hd tl ih =>
    obtain ⟨j, x⟩ := hd
    by_cases hj : j = cid <;> simp [setId, hj, ih]

theorem mapFst_eraseId_sublist (l : List (Nat × Client)) (cid : Nat) :
    ((eraseId l cid).map Prod.fst).Sublist (l.map Prod.fst) := by
  induction l with
  | nil => simp [eraseId]
  | cons hd tl ih =>
    obtain ⟨j, x⟩ := hd
    by_cases hj : j = cid
    · simp only [eraseId, if_pos hj, List.map_cons]
      exact (List.sublist_cons_self j (tl.map Prod.fst))
    · simp only [eraseId, if_neg hj, List.map_cons]
      exact ih.cons₂ j

theorem mem_eraseNat_of_ne (l : List Nat) (x y : Nat) (h : x ≠ y) :
    x ∈ eraseNat l y ↔ x ∈ l := by
  induction l with
  | nil => simp [eraseNat]
  | cons hd tl ih =>
    by_cases hy : hd = y
    · subst hy
      simp only [eraseNat, if_pos rfl, List.mem_cons]
      exact ⟨fun hm => Or.inr hm, fun hm => hm.resolve_left h⟩
    · simp [eraseNat, hy, ih]

theorem not_mem_eraseNat_self (l : List Nat) (x : Nat) (h : l.Nodup) :
    x ∉ eraseNat l x := by
  induction l with
  | nil => simp [eraseNat]
  | cons hd tl ih =>
    simp only [List.nodup_cons] at h
    by_cases hx : hd = x
    · subst hx
      simpa [eraseNat] using h.1
    · simp only [eraseNat, if_neg hx, List.mem_cons]
      rintro (rfl | hm)
      · exact hx rfl
      · exact ih h.2 hm

theorem lookupVm_replaceVm_self (tbl : List (String × Nat)) (key : String)
    (v v0 : Nat) (h : lookupVm tbl key = some v0) :
    lookupVm (replaceVm tbl key v) key = some v := by
  induction tbl with
  | nil => simp [lookupVm] at h
  | cons hd tl ih =>
    obtain ⟨k, x⟩ := hd
    by_cases hk : k = key
    · simp [lookupVm, replaceVm, hk]
    · simp [lookupVm, replaceVm, hk] at h ⊢
      exact ih h

theorem lookupVm_replaceVm_ne (tbl : List (String × Nat)) (key k : String)
    (v : Nat) (h : k ≠ key) :
    lookupVm (replaceVm tbl key v) k = lookupVm tbl k := by
  induction tbl with
  | nil => simp [replaceVm]
  | cons hd tl ih =>
    obtain ⟨j, x⟩ := hd
    by_cases hj : j = key
    · subst hj
      simp [lookupVm, replaceVm, Ne.symm h]
    · simp only [replaceVm, if_neg hj, lookupVm]
      by_cases hjk : j = k <;> simp [hjk, ih]

theorem mapFst_replaceVm (tbl : List (String × Nat)) (key : String) (v : Nat) :
    (replaceVm tbl key v).map Prod.fst = tbl.map Prod.fst := by
  induction tbl with
  | nil => simp [replaceVm]
  | cons hd tl ih =>
    obtain ⟨j, x⟩ := hd
    by_cases hj : j = key <;> simp [replaceVm, hj, ih]

theorem lookupVm_eq_none (tbl : List (String × Nat)) (key : String)
    (h : key ∉ tbl.map Prod.fst) : lookupVm tbl key = none := by
  induction tbl with
  | nil => simp [lookupVm]
  | cons hd tl ih =>
    obtain ⟨j, x⟩ := hd
    simp only [List.map_cons, List.mem_cons] at h
    push_neg at h
    simp [lookupVm, Ne.symm h.1, ih h.2]

theorem lookupVm_none_not_mem (tbl : List (String × Nat)) (key : String)
    (h : lookupVm tbl key = none) : key ∉ tbl.map Prod.fst := by
  induction tbl with
  | nil => simp
  | cons hd tl ih =>
    obtain ⟨j, x⟩ := hd
    by_cases hj : j = key
    · simp [lookupVm, hj] at h
    · simp only [lookupVm, if_neg hj] at h
      simp only [List.map_cons, List.mem_cons]
      rintro (rfl | hm)
      · exact hj rfl
      · exact ih h hm

/-- `g_hash_table_insert` always maps the key to the new value, leaves
every other key alone, reports a collision by returning false, and
preserves key uniqueness. -/
theorem g_hash_table_insert_spec (tbl : List (String × Nat)) (key : String)
    (v : Nat) :
    lookupVm (g_hash_table_insert tbl key v).1 key = some v ∧
    (∀ k, k ≠ key →
      lookupVm (g_hash_table_insert tbl key v).1 k = lookupVm tbl k) ∧
    ((g_hash_table_insert tbl key v).2 = false ↔ lookupVm tbl key ≠ none) ∧
    ((tbl.map Prod.fst).Nodup →
      (((g_hash_table_insert tbl key v).1.map Prod.fst)).Nodup) := by
  unfold g_hash_table_insert
  cases h : lookupVm tbl key with
  | none =>
    refine ⟨by simp [lookupVm], fun k hk => by simp [lookupVm, Ne.symm hk], by simp, ?_⟩
    intro hd
    simp only [List.map_cons, List.nodup_cons]
    exact ⟨lookupVm_none_not_mem tbl key h, hd⟩
  | some v0 =>
    refine ⟨lookupVm_replaceVm_self tbl key v v0 h,
            fun k hk => lookupVm_replaceVm_ne tbl key k v hk, by simp [h], ?_⟩
    intro hd
    simpa [mapFst_replaceVm] using hd

theorem getClient_setClient_self (w : World) (cid : Nat) (c c0 : Client)
    (h : w.getClient cid = some c0) :
    (w.setClient cid c).getClient cid = some c :=
  lookupId_setId_self w.clients cid c c0 h

theorem getClient_setClient_ne (w : World) (cid i : Nat) (c : Client)
    (h : i ≠ cid) : (w.setClient cid c).getClient i = w.getClient i :=
  lookupId_setId_ne w.clients cid i c h

/-- `cleanup_qemu_client` only touches the registry (and forks); the
client heap, forced-cleanup list and clock stay as they are. -/
theorem cleanup_qemu_client_frame (env : Env) (w : World) (cid : Nat) :
    (cleanup_qemu_client env w cid).1.clients = w.clients ∧
    (cleanup_qemu_client env w cid).1.forced_cleanups = w.forced_cleanups := by
  unfold cleanup_qemu_client
  cases h : w.getClient cid with
  | none => exact ⟨rfl, rfl⟩
  | some c => cases env.forkOk <;> simp

/-- The mutually recursive teardown functions never allocate client ids:
the id list of the heap after a call is a sublist of the one before
(hence key uniqueness of the heap is preserved). -/
theorem teardown_keys_sublist (fuel : Nat) :
    (∀ env w cid cmd,
      (((send_qmp_cmd fuel env w cid cmd).1.clients.map Prod.fst)).Sublist
        (w.clients.map Prod.fst)) ∧
    (∀ env w cid,
      (((cleanup_client fuel env w cid).1.clients.map Prod.fst)).Sublist
        (w.clients.map Prod.fst)) ∧
    (∀ env w cid,
      (((terminate_check fuel env w cid).1.clients.map Prod.fst)).Sublist
        (w.clients.map Prod.fst)) := by
  induction fuel with
  | zero =>
    refine ⟨fun env w cid cmd => ?_, fun env w cid => ?_, fun env w cid => ?_⟩ <;>
      simp [send_qmp_cmd, cleanup_client, terminate_check]
  | succ n ih =>
    obtain ⟨ihS, ihC, ihT⟩ := ih
    refine ⟨fun env w cid cmd => ?_, fun env w cid => ?_, fun env w cid => ?_⟩
    · simp only [send_qmp_cmd]
      by_cases hw : env.writeOk cid
      · simp [hw]
      · simp only [hw, if_false]
        rcases h : cleanup_client n env w cid with ⟨w1, es⟩
        have := ihC env w cid
        rw [h] at this
        simpa using this
    · simp only [cleanup_client]
      cases hg : w.getClient cid with
      | none => simp
      | some c =>
        simp only []
        have hbranch :
            (((match c.type with
              | .CLIENT_QEMU => cleanup_qemu_client env w cid
              | .CLIENT_VZDUMP =>
                match lookupVm w.vm_clients c.vzdump_vmid with
                | some vmcid =>
                  match w.getClient vmcid with
                  | some vmc =>
                    terminate_check n env
                      (w.setClient vmcid
                        { vmc with qemu := { vmc.qemu with backup := false } })
                      vmcid
                  | none => (w, [])
                | none => (w, [])
              | .CLIENT_NONE => (w, [])).1.clients.map Prod.fst)).Sublist
              (w.clients.map Prod.fst) := by
          cases htype : c.type with
          | CLIENT_QEMU =>
            have := (cleanup_qemu_client_frame env w cid).1
            simp [this]
          | CLIENT_VZDUMP =>
            cases hvm : lookupVm w.vm_clients c.vzdump_vmid with
            | none => simp
            | some vmcid =>
              cases hvc : w.getClient vmcid with
              | none => simp [hvc]
              | some vmc =>
                simp only [hvc]
                have hsub := ihT env
                  (w.setClient vmcid
                    { vmc with qemu := { vmc.qemu with backup := false } }) vmcid
                simpa [World.setClient, mapFst_setId] using hsub
          | CLIENT_NONE => simp
        rcases hb : (match c.type with
          | .CLIENT_QEMU => cleanup_qemu_client env w cid
          | .CLIENT_VZDUMP =>
            match lookupVm w.vm_clients c.vzdump_vmid with
            | some vmcid =>
              match w.getClient vmcid with
              | some vmc =>
                terminate_check n env
                  (w.setClient vmcid
                    { vmc with qemu := { vmc.qemu with backup := false } })
                  vmcid
              | none => (w, [])
            | none => (w, [])
          | .CLIENT_NONE => (w, [])) with ⟨w1, es1⟩
        simp only [hb] at hbranch ⊢
        exact ((mapFst_eraseId_sublist w1.clients cid).trans hbranch)
    · simp only [terminate_check]
      cases hg : w.getClient cid with
      | none => simp
      | some c =>
        simp only []
        by_cases hs : c.state = .STATE_IDLE
        · simp only [hs]
          have hsub := ihS env
            (w.setClient cid
              { c with qemu := { c.qemu with term_check_queued := false },
                       state := .STATE_EXPECT_STATUS_RESP }) cid .query_status
          simp only [ne_eq, not_true_eq_false, if_false]
          simpa [World.setClient, mapFst_setId] using hsub
        · simp only [ne_eq, hs, not_false_eq_true, if_true]
          simp [World.setClient, mapFst_setId]

/-! ### Behaviour of `terminate_check` and the `out:` label -/

/-- Outside STATE_IDLE, `terminate_check` only queues the recheck flag
and sends nothing. -/
theorem terminate_check_queue (fuel : Nat) (hf : 1 ≤ fuel) (env : Env)
    (w : World) (cid : Nat) (c : Client) (hg : w.getClient cid = some c)
    (hs : c.state ≠ .STATE_IDLE) :
    terminate_check fuel env w cid =
      (w.setClient cid
        { c with qemu := { c.qemu with term_check_queued := true } }, []) := by
  obtain ⟨f, rfl⟩ : ∃ f, fuel = f + 1 := ⟨fuel - 1, by omega⟩
  simp only [terminate_check]
  rw [hg]
  simp [hs]

/-- In STATE_IDLE with a deliverable write, `terminate_check` clears the
recheck flag, moves to STATE_EXPECT_STATUS_RESP and sends exactly one
`query-status`. -/
theorem terminate_check_idle (fuel : Nat) (hf : 2 ≤ fuel) (env : Env)
    (w : World) (cid : Nat) (c : Client) (hg : w.getClient cid = some c)
    (hs : c.state = .STATE_IDLE) (hw : env.writeOk cid = true) :
    terminate_check fuel env w cid =
      (w.setClient cid
        { c with qemu := { c.qemu with term_check_queued := false },
                 state := .STATE_EXPECT_STATUS_RESP },
       [Effect.qmpWrite cid .query_status]) := by
  obtain ⟨f, rfl⟩ : ∃ f, fuel = f + 2 := ⟨fuel - 2, by omega⟩
  simp only [terminate_check]
  rw [hg]
  simp [hs, send_qmp_cmd, hw]

/-- A deliverable write sends the command and changes nothing else. -/
theorem send_qmp_cmd_ok (fuel : Nat) (hf : 1 ≤ fuel) (env : Env) (w : World)
    (cid : Nat) (cmd : QmpCmd) (hw : env.writeOk cid = true) :
    send_qmp_cmd fuel env w cid cmd = (w, [Effect.qmpWrite cid cmd]) := by
  obtain ⟨f, rfl⟩ : ∃ f, fuel = f + 1 := ⟨fuel - 1, by omega⟩
  simp [send_qmp_cmd, hw]

/-- Without a queued recheck the `out:` label is a no-op. -/
theorem qmp_return_out_no_queue (fuel : Nat) (env : Env) (w : World)
    (cid : Nat) (c : Client) (es : List Effect)
    (hg : w.getClient cid = some c)
    (hq : c.qemu.term_check_queued = false) :
    qmp_return_out fuel env w cid es = (w, es) := by
  simp only [qmp_return_out]
  rw [hg]
  simp [hq]

/-- With a queued recheck the `out:` label re-runs `terminate_check`. -/
theorem qmp_return_out_queue (fuel : Nat) (env : Env) (w : World)
    (cid : Nat) (c : Client) (es : List Effect)
    (hg : w.getClient cid = some c)
    (hq : c.qemu.term_check_queued = true) :
    qmp_return_out fuel env w cid es =
      ((terminate_check fuel env w cid).1,
        es ++ (terminate_check fuel env w cid).2) := by
  simp only [qmp_return_out]
  rw [hg]
  simp [hq]

/-! ### C5 -/

/-- C5: per connection at most one status query is in flight.  Running
the termination check outside STATE_IDLE only sets the recheck-pending
flag and sends nothing; in STATE_IDLE it clears the flag, sends exactly
one `query-status` and moves to STATE_EXPECT_STATUS_RESP; after a
handled command return a queued recheck re-runs the check; and two
SHUTDOWN events arriving before any status response produce exactly one
in-flight status query. -/
theorem C5_one_query_in_flight :
    (∀ fuel env w cid c, w.getClient cid = some c → c.state ≠ .STATE_IDLE →
      terminate_check (fuel + 1) env w cid =
        (w.setClient cid
          { c with qemu := { c.qemu with term_check_queued := true } }, [])) ∧
    (∀ fuel env w cid c, w.getClient cid = some c → c.state = .STATE_IDLE →
      env.writeOk cid = true →
      terminate_check (fuel + 2) env w cid =
        (w.setClient cid
          { c with qemu := { c.qemu with term_check_queued := false },
                   state := .STATE_EXPECT_STATUS_RESP },
         [Effect.qmpWrite cid .query_status])) ∧
    (∀ fuel env w cid c data, w.getClient cid = some c →
      c.state = .STATE_EXPECT_STATUS_RESP → c.qemu.term_check_queued = true →
      env.writeOk cid = true → status_is_active data = true →
      (handle_qmp_return (fuel + 2) env w cid data false).2 =
        [Effect.qmpWrite cid .query_status] ∧
      ∃ c2, (handle_qmp_return (fuel + 2) env w cid data false).1.getClient cid
          = some c2 ∧ c2.state = .STATE_EXPECT_STATUS_RESP ∧
          c2.qemu.term_check_queued = false) ∧
    ((handle_qmp_event 2 env0 (wOf (cQemu .STATE_IDLE qs0)) 1 shutdownMsg).2 =
        [Effect.qmpWrite 1 .query_status] ∧
      (handle_qmp_event 2 env0
          (handle_qmp_event 2 env0 (wOf (cQemu .STATE_IDLE qs0)) 1
            shutdownMsg).1 1 shutdownMsg).2 = [] ∧
      ((handle_qmp_event 2 env0
          (handle_qmp_event 2 env0 (wOf (cQemu .STATE_IDLE qs0)) 1
            shutdownMsg).1 1 shutdownMsg).1.getClient 1).map
        (fun c => (c.state, c.qemu.term_check_queued)) =
        some (.STATE_EXPECT_STATUS_RESP, true)) := by
  refine ⟨fun fuel env w cid c hg hs =>
            terminate_check_queue (fuel + 1) (by omega) env w cid c hg hs,
          fun fuel env w cid c hg hs hw =>
            terminate_check_idle (fuel + 2) (by omega) env w cid c hg hs hw,
          fun fuel env w cid c data hg hs hq hw hact => ?_, by decide⟩
  have hbody : handle_qmp_return (fuel + 2) env w cid data false =
      qmp_return_out (fuel + 2) env
        (w.setClient cid { c with state := .STATE_IDLE }) cid [] := by
    simp only [handle_qmp_return]
    rw [hg]
    simp [hs, hact]
  have hg1 : (w.setClient cid { c with state := .STATE_IDLE }).getClient cid
      = some { c with state := .STATE_IDLE } :=
    getClient_setClient_self w cid _ c hg
  have hout := qmp_return_out_queue (fuel + 2) env
    (w.setClient cid { c with state := .STATE_IDLE }) cid
    { c with state := .STATE_IDLE } [] hg1 (by simpa using hq)
  have htc := terminate_check_idle (fuel + 2) (by omega) env
    (w.setClient cid { c with state := .STATE_IDLE }) cid
    { c with state := .STATE_IDLE } hg1 rfl hw
  rw [hbody, hout, htc]
  refine ⟨rfl, ⟨_, getClient_setClient_self _ cid _ _ hg1, rfl, rfl⟩⟩

/-- Witness for C5 at concrete inputs. -/
theorem C5_witness :
    terminate_check 1 env0 (wOf (cQemu .STATE_EXPECT_STATUS_RESP qs0)) 1 =
      ((wOf (cQemu .STATE_EXPECT_STATUS_RESP qs0)).setClient 1
        { cQemu .STATE_EXPECT_STATUS_RESP qs0 with
          qemu := { qs0 with term_check_queued := true } }, []) ∧
    terminate_check 2 env0 (wOf (cQemu .STATE_IDLE qs0)) 1 =
      ((wOf (cQemu .STATE_IDLE qs0)).setClient 1
        { cQemu .STATE_IDLE qs0 with
          qemu := { qs0 with term_check_queued := false },
          state := .STATE_EXPECT_STATUS_RESP },
       [Effect.qmpWrite 1 .query_status]) ∧
    ((handle_qmp_return 2 env0
        (wOf (cQemu .STATE_EXPECT_STATUS_RESP
          { qs0 with term_check_queued := true })) 1 runningStatus false).2 =
      [Effect.qmpWrite 1 .query_status] ∧
     ∃ c2, (handle_qmp_return 2 env0
        (wOf (cQemu .STATE_EXPECT_STATUS_RESP
          { qs0 with term_check_queued := true })) 1
          runningStatus false).1.getClient 1 = some c2 ∧
        c2.state = .STATE_EXPECT_STATUS_RESP ∧
        c2.qemu.term_check_queued = false) :=
  ⟨C5_one_query_in_flight.1 0 env0 _ 1 _ rfl (by decide),
   C5_one_query_in_flight.2.1 0 env0 _ 1 _ rfl rfl rfl,
   C5_one_query_in_flight.2.2.1 0 env0 _ 1 _ runningStatus rfl rfl rfl rfl
     (by decide)⟩

/-! ### C1 -/

theorem qemu_set_queued_eq (q : QemuState) (h : q.term_check_queued = true) :
    { q with term_check_queued := true } = q := by
  cases q
  simp_all

/-- C1 counterexample: a connection in STATE_TERMINATING that receives
an error command return does not keep its state — `handle_qmp_return`
resets it to STATE_IDLE on the error path before inspecting the state,
contradicting the claim that any further command return (success or
error) leaves the state unchanged. -/
theorem C1_counterexample :
    (((handle_qmp_return 2 env0 (wOf (cQemu .STATE_TERMINATING qs0)) 1
        (JValue.jobj []) true).1.getClient 1).map Client.state =
      some .STATE_IDLE) ∧
    (((handle_qmp_return 2 env0 (wOf (cQemu .STATE_TERMINATING qs0)) 1
        (JValue.jobj []) true).1.getClient 1).map Client.state ≠
      some .STATE_TERMINATING) := by
  constructor
  · decide
  · decide

/-- C1 (amended): for a connection in STATE_TERMINATING, further
shutdown-type events and further successful command returns leave the
state and the whole VM payload unchanged and begin no escalation; an
error command return however logs, resets the state to STATE_IDLE (after
which a pending recheck immediately re-runs the termination check), and
still begins no escalation. -/
theorem C1_terminating_inert (fuel : Nat) (env : Env) (w : World)
    (cid : Nat) (c : Client) (hg : w.getClient cid = some c)
    (hterm : c.state = .STATE_TERMINATING) (hw : env.writeOk cid = true) :
    (∀ obj, handle_qmp_event fuel env w cid obj = (w, [])) ∧
    (∀ data,
      (handle_qmp_return (fuel + 2) env w cid data false).1.forced_cleanups
          = w.forced_cleanups ∧
      (handle_qmp_return (fuel + 2) env w cid data false).2 = [] ∧
      ∃ c', (handle_qmp_return (fuel + 2) env w cid data false).1.getClient cid
            = some c' ∧
        c'.state = .STATE_TERMINATING ∧ c'.qemu = c.qemu) ∧
    (∀ data,
      (handle_qmp_return (fuel + 2) env w cid data true).1.forced_cleanups
          = w.forced_cleanups ∧
      ∃ c', (handle_qmp_return (fuel + 2) env w cid data true).1.getClient cid
            = some c' ∧
        (c.qemu.term_check_queued = false →
          c'.state = .STATE_IDLE ∧
          (handle_qmp_return (fuel + 2) env w cid data true).2 =
            [Effect.log "received error from QMP"]) ∧
        (c.qemu.term_check_queued = true →
          c'.state = .STATE_EXPECT_STATUS_RESP ∧
          (handle_qmp_return (fuel + 2) env w cid data true).2 =
            [Effect.log "received error from QMP",
             Effect.qmpWrite cid .query_status])) := by
  refine ⟨?_, ?_, ?_⟩
  · intro obj
    simp only [handle_qmp_event]
    rw [hg]
    cases hoe : json_object_object_get_ex obj "event" with
    | none => rfl
    | some ev => simp [hterm]
  · intro data
    have hbody : handle_qmp_return (fuel + 2) env w cid data false =
        qmp_return_out (fuel + 2) env w cid [] := by
      simp only [handle_qmp_return]
      rw [hg]
      simp [hterm]
    cases hq : c.qemu.term_check_queued with
    | false =>
      rw [hbody, qmp_return_out_no_queue _ env w cid c [] hg hq]
      exact ⟨rfl, rfl, c, hg, hterm, rfl⟩
    | true =>
      rw [hbody, qmp_return_out_queue _ env w cid c [] hg hq,
          terminate_check_queue (fuel + 2) (by omega) env w cid c hg
            (by rw [hterm]; decide)]
      refine ⟨rfl, rfl, _, getClient_setClient_self w cid _ c hg, hterm, ?_⟩
      exact qemu_set_queued_eq c.qemu hq
  · intro data
    have hbody : handle_qmp_return (fuel + 2) env w cid data true =
        qmp_return_out (fuel + 2) env
          (w.setClient cid { c with state := .STATE_IDLE }) cid
          [Effect.log "received error from QMP"] := by
      simp only [handle_qmp_return]
      rw [hg]
      simp
    have hg1 := getClient_setClient_self w cid
      { c with state := .STATE_IDLE } c hg
    cases hq : c.qemu.term_check_queued with
    | false =>
      rw [hbody, qmp_return_out_no_queue _ env _ cid _ _ hg1 (by simpa using hq)]
      exact ⟨rfl, _, hg1, fun _ => ⟨rfl, rfl⟩,
             fun hcon => absurd hcon (by decide)⟩
    | true =>
      rw [hbody, qmp_return_out_queue _ env _ cid _ _ hg1 (by simpa using hq),
          terminate_check_idle (fuel + 2) (by omega) env _ cid _ hg1 rfl hw]
      exact ⟨rfl, _, getClient_setClient_self _ cid _ _ hg1,
             fun hcon => absurd hcon (by decide), fun _ => ⟨rfl, rfl⟩⟩

theorem setId_setId (l : List (Nat × Client)) (cid : Nat) (a b : Client) :
    setId (setId l cid a) cid b = setId l cid b := by
  induction l with
  | nil => simp [setId]
  | cons hd tl ih =>
    obtain ⟨j, x⟩ := hd
    by_cases hj : j = cid <;> simp [setId, hj, ih]

theorem setClient_setClient (w : World) (cid : Nat) (a b : Client) :
    (w.setClient cid a).setClient cid b = w.setClient cid b := by
  simp [World.setClient, setId_setId]

/-- `terminate_client` when the target process is still alive (the
`pidfd_open` result is not an ESRCH failure): the state becomes
STATE_TERMINATING, the quit command is attempted (SIGTERM on a failed
write), and the client records its own deadline `now + kill_timeout` in
the pending forced cleanups. -/
theorem terminate_client_alive (env : Env) (w : World) (cid : Nat) (c : Client)
    (hg : w.getClient cid = some c)
    (hpf : ¬(env.pidfd_of c.pid < 0 ∧ env.pidfd_errno c.pid = ESRCH)) :
    terminate_client env w cid =
      ({ w.setClient cid
          { c with state := .STATE_TERMINATING, pidfd := env.pidfd_of c.pid,
                   timeout := w.now + w.kill_timeout } with
         forced_cleanups := cid :: w.forced_cleanups, needs_cleanup := true },
       if env.writeOk cid then [Effect.qmpWrite cid .quit]
       else [Effect.sigterm c.pid]) := by
  simp only [terminate_client]
  rw [hg]
  simp [hpf, setClient_setClient, World.setClient, setId_setId]

/-- Witness for C1 at concrete inputs. -/
theorem C1_witness :
    (∀ obj, handle_qmp_event 2 env0 (wOf (cQemu .STATE_TERMINATING qs0)) 1 obj
      = (wOf (cQemu .STATE_TERMINATING qs0), [])) ∧
    ((handle_qmp_return 2 env0 (wOf (cQemu .STATE_TERMINATING qs0)) 1
        runningStatus false).2 = []) :=
  ⟨(C1_terminating_inert 2 env0 (wOf (cQemu .STATE_TERMINATING qs0)) 1
      (cQemu .STATE_TERMINATING qs0) rfl rfl rfl).1,
   ((C1_terminating_inert 0 env0 (wOf (cQemu .STATE_TERMINATING qs0)) 1
      (cQemu .STATE_TERMINATING qs0) rfl rfl rfl).2.1 runningStatus).2.1⟩

/-! ### C6 -/

/-- C6 counterexample: in STATE_EXPECT_STATUS_RESP with a pending
recheck, a successful status response reporting "running" does not leave
the connection in STATE_IDLE with no further action: the queued
termination check re-runs immediately, sending a new status query and
moving back to STATE_EXPECT_STATUS_RESP. -/
theorem C6_counterexample :
    (((handle_qmp_return 2 env0
        (wOf (cQemu .STATE_EXPECT_STATUS_RESP
          { qs0 with term_check_queued := true })) 1
        runningStatus false).1.getClient 1).map Client.state ≠
      some .STATE_IDLE) ∧
    ((handle_qmp_return 2 env0
        (wOf (cQemu .STATE_EXPECT_STATUS_RESP
          { qs0 with term_check_queued := true })) 1
        runningStatus false).2 ≠ ([] : List Effect)) := by
  constructor
  · decide
  · decide

/-- C6 (amended): for a connection in STATE_EXPECT_STATUS_RESP with no
recheck pending, a successful status response returns the state to
STATE_IDLE, and: a "running"/"paused" status causes no further action; an
inactive status with the backup flag set causes no termination; an
inactive status without backup begins escalation and the state becomes
STATE_TERMINATING.  (With a recheck pending the termination check re-runs
immediately afterwards, see the counterexample.) -/
theorem C6_expect_status (fuel : Nat) (env : Env) (w : World) (cid : Nat)
    (c : Client) (data : JValue) (hg : w.getClient cid = some c)
    (hs : c.state = .STATE_EXPECT_STATUS_RESP)
    (hq : c.qemu.term_check_queued = false) (hw : env.writeOk cid = true) :
    (status_is_active data = true →
      handle_qmp_return (fuel + 2) env w cid data false =
        (w.setClient cid { c with state := .STATE_IDLE }, [])) ∧
    (status_is_active data = false → c.qemu.backup = true →
      handle_qmp_return (fuel + 2) env w cid data false =
        (w.setClient cid { c with state := .STATE_IDLE }, [])) ∧
    (status_is_active data = false → c.qemu.backup = false →
      ¬(env.pidfd_of c.pid < 0 ∧ env.pidfd_errno c.pid = ESRCH) →
      (handle_qmp_return (fuel + 2) env w cid data false).2 =
        [Effect.qmpWrite cid .quit] ∧
      ((handle_qmp_return (fuel + 2) env w cid data false).1.getClient cid).map
        Client.state = some .STATE_TERMINATING ∧
      (handle_qmp_return (fuel + 2) env w cid data false).1.forced_cleanups =
        cid :: w.forced_cleanups) := by
  have hg1 := getClient_setClient_self w cid { c with state := .STATE_IDLE } c hg
  refine ⟨fun hact => ?_, fun hact hback => ?_, fun hact hback hpf => ?_⟩
  · have hbody : handle_qmp_return (fuel + 2) env w cid data false =
        qmp_return_out (fuel + 2) env
          (w.setClient cid { c with state := .STATE_IDLE }) cid [] := by
      simp only [handle_qmp_return]
      rw [hg]
      simp [hs, hact]
    rw [hbody, qmp_return_out_no_queue _ env _ cid _ _ hg1 (by simpa using hq)]
  · have hbody : handle_qmp_return (fuel + 2) env w cid data false =
        qmp_return_out (fuel + 2) env
          (w.setClient cid { c with state := .STATE_IDLE }) cid [] := by
      simp only [handle_qmp_return]
      rw [hg]
      simp [hs, hact, hback]
    rw [hbody, qmp_return_out_no_queue _ env _ cid _ _ hg1 (by simpa using hq)]
  · have ht := terminate_client_alive env
      (w.setClient cid { c with state := .STATE_IDLE }) cid
      { c with state := .STATE_IDLE } hg1 hpf
    have hbody : handle_qmp_return (fuel + 2) env w cid data false =
        qmp_return_out (fuel + 2) env
          (terminate_client env
            (w.setClient cid { c with state := .STATE_IDLE }) cid).1 cid
          (terminate_client env
            (w.setClient cid { c with state := .STATE_IDLE }) cid).2 := by
      simp only [handle_qmp_return]
      rw [hg]
      simp [hs, hact, hback]
    have hg2 : ((terminate_client env
        (w.setClient cid { c with state := .STATE_IDLE }) cid).1).getClient cid
        = some { { c with state := .STATE_IDLE } with
                 state := .STATE_TERMINATING,
                 pidfd := env.pidfd_of c.pid,
                 timeout := w.now + w.kill_timeout } := by
      rw [ht]
      show ((w.setClient cid { c with state := .STATE_IDLE }).setClient cid _).getClient cid = _
      rw [setClient_setClient]
      exact getClient_setClient_self w cid _ c hg
    rw [hbody, qmp_return_out_no_queue _ env _ cid _ _ hg2 (by simpa using hq)]
    refine ⟨by rw [ht]; simp [hw], by simp [hg2], by rw [ht]; simp [World.setClient]⟩

/-- Witness for C6 at concrete inputs: an inactive status without a
backup terminates VM 100. -/
theorem C6_witness :
    (handle_qmp_return 2 env0
        (wOf (cQemu .STATE_EXPECT_STATUS_RESP qs0)) 1
        shutdownStatus false).2 = [Effect.qmpWrite 1 .quit] ∧
    ((handle_qmp_return 2 env0
        (wOf (cQemu .STATE_EXPECT_STATUS_RESP qs0)) 1
        shutdownStatus false).1.getClient 1).map Client.state =
      some .STATE_TERMINATING :=
  ⟨((C6_expect_status 0 env0 (wOf (cQemu .STATE_EXPECT_STATUS_RESP qs0)) 1
      (cQemu .STATE_EXPECT_STATUS_RESP qs0) shutdownStatus rfl rfl rfl rfl).2.2
      (by decide) rfl (by decide)).1,
   ((C6_expect_status 0 env0 (wOf (cQemu .STATE_EXPECT_STATUS_RESP qs0)) 1
      (cQemu .STATE_EXPECT_STATUS_RESP qs0) shutdownStatus rfl rfl rfl rfl).2.2
      (by decide) rfl (by decide)).2.1⟩

/-! ### C3 -/

/-- `cleanup_client` always frees the client and closes its socket. -/
theorem cleanup_client_removes (fuel : Nat) (env : Env) (w : World) (cid : Nat)
    (hnd : (w.clients.map Prod.fst).Nodup)
    (hsome : (w.getClient cid).isSome = true) :
    (cleanup_client (fuel + 1) env w cid).1.getClient cid = none ∧
    Effect.closeFd cid ∈ (cleanup_client (fuel + 1) env w cid).2 := by
  rw [Option.isSome_iff_exists] at hsome
  obtain ⟨c, hc⟩ := hsome
  simp only [cleanup_client]
  rw [hc]
  rcases hb : (match c.type with
    | .CLIENT_QEMU => cleanup_qemu_client env w cid
    | .CLIENT_VZDUMP =>
      match lookupVm w.vm_clients c.vzdump_vmid with
      | some vmcid =>
        match w.getClient vmcid with
        | some vmc =>
          terminate_check fuel env
            (w.setClient vmcid
              { vmc with qemu := { vmc.qemu with backup := false } })
            vmcid
        | none => (w, [])
      | none => (w, [])
    | .CLIENT_NONE => (w, [])) with ⟨w1, es1⟩
  have hnd1 : (w1.clients.map Prod.fst).Nodup := by
    cases htype : c.type with
    | CLIENT_QEMU =>
      rw [htype] at hb
      simp only [] at hb
      have hfr := (cleanup_qemu_client_frame env w cid).1
      rw [hb] at hfr
      simp only [] at hfr
      rw [hfr]
      exact hnd
    | CLIENT_VZDUMP =>
      rw [htype] at hb
      simp only [] at hb
      cases hvm : lookupVm w.vm_clients c.vzdump_vmid with
      | none =>
        rw [hvm] at hb
        simp only [] at hb
        have h1 : w = w1 := congrArg Prod.fst hb
        rw [← h1]
        exact hnd
      | some vmcid =>
        rw [hvm] at hb
        simp only [] at hb
        cases hvc : w.getClient vmcid with
        | none =>
          rw [hvc] at hb
          simp only [] at hb
          have h1 : w = w1 := congrArg Prod.fst hb
          rw [← h1]
          exact hnd
        | some vmc =>
          rw [hvc] at hb
          simp only [] at hb
          have hsub := (teardown_keys_sublist fuel).2.2 env
            (w.setClient vmcid
              { vmc with qemu := { vmc.qemu with backup := false } }) vmcid
          rw [hb] at hsub
          simp only [World.setClient, mapFst_setId] at hsub
          exact hsub.nodup hnd
    | CLIENT_NONE =>
      rw [htype] at hb
      simp only [] at hb
      have h1 : w = w1 := congrArg Prod.fst hb
      rw [← h1]
      exact hnd
  simp only [hb]
  exact ⟨lookupId_eraseId_self w1.clients cid hnd1, by simp⟩

/-- `cleanup_qemu_client` with a successful fork: the registry entry is
dropped and the cleanup action is launched with the VMID and the two
flags as positional arguments. -/
theorem cleanup_qemu_client_ok (env : Env) (w : World) (cid : Nat)
    (c : Client) (hg : w.getClient cid = some c) (hfork : env.forkOk = true) :
    cleanup_qemu_client env w cid =
      ({ w with vm_clients := eraseVm w.vm_clients c.qemu.vmid },
       [Effect.execCleanup c.qemu.vmid (if c.qemu.graceful then "1" else "0")
          (if c.qemu.guest then "1" else "0")]) := by
  unfold cleanup_qemu_client
  rw [hg]
  simp [hfork]

/-- `cleanup_client` on a QEMU client: close, execute the cleanup, drop
the registry entry and any pending forced cleanup, free the client. -/
theorem cleanup_client_qemu (fuel : Nat) (env : Env) (w : World) (cid : Nat)
    (c : Client) (hg : w.getClient cid = some c)
    (ht : c.type = .CLIENT_QEMU) (hfork : env.forkOk = true) :
    cleanup_client (fuel + 1) env w cid =
      ({ w with vm_clients := eraseVm w.vm_clients c.qemu.vmid
                forced_cleanups := eraseNat w.forced_cleanups cid
                clients := eraseId w.clients cid },
       [Effect.closeFd cid,
        Effect.execCleanup c.qemu.vmid (if c.qemu.graceful then "1" else "0")
          (if c.qemu.guest then "1" else "0")]) := by
  simp only [cleanup_client]
  rw [hg]
  simp only [ht]
  rw [cleanup_qemu_client_ok env w cid c hg hfork]

/-- `cleanup_client` on an unclassified client: only the socket is
closed and the client freed. -/
theorem cleanup_client_none (fuel : Nat) (env : Env) (w : World) (cid : Nat)
    (c : Client) (hg : w.getClient cid = some c)
    (ht : c.type = .CLIENT_NONE) :
    cleanup_client (fuel + 1) env w cid =
      ({ w with forced_cleanups := eraseNat w.forced_cleanups cid
                clients := eraseId w.clients cid },
       [Effect.closeFd cid]) := by
  simp only [cleanup_client]
  rw [hg]
  simp only [ht]

/-- `cleanup_client` on a backup coordinator whose target VM is still
registered: the target loses its backup flag and its termination check
is re-run, then the coordinator is freed. -/
theorem cleanup_client_vzdump (fuel : Nat) (env : Env) (w : World)
    (cid vmcid : Nat) (c vmc : Client) (hg : w.getClient cid = some c)
    (ht : c.type = .CLIENT_VZDUMP)
    (hvm : lookupVm w.vm_clients c.vzdump_vmid = some vmcid)
    (hvc : w.getClient vmcid = some vmc) :
    cleanup_client (fuel + 1) env w cid =
      ({ (terminate_check fuel env
            (w.setClient vmcid
              { vmc with qemu := { vmc.qemu with backup := false } })
            vmcid).1 with
         forced_cleanups :=
           eraseNat (terminate_check fuel env
             (w.setClient vmcid
               { vmc with qemu := { vmc.qemu with backup := false } })
             vmcid).1.forced_cleanups cid
         clients :=
           eraseId (terminate_check fuel env
             (w.setClient vmcid
               { vmc with qemu := { vmc.qemu with backup := false } })
             vmcid).1.clients cid },
       Effect.closeFd cid ::
         (terminate_check fuel env
           (w.setClient vmcid
             { vmc with qemu := { vmc.qemu with backup := false } })
           vmcid).2) := by
  simp only [cleanup_client]
  rw [hg]
  simp only [ht]
  simp only [hvm]
  simp only [hvc]

/-- `cleanup_client` on a backup coordinator whose target VMID has no
registry entry: only close and free. -/
theorem cleanup_client_vzdump_unreg (fuel : Nat) (env : Env) (w : World)
    (cid : Nat) (c : Client) (hg : w.getClient cid = some c)
    (ht : c.type = .CLIENT_VZDUMP)
    (hvm : lookupVm w.vm_clients c.vzdump_vmid = none) :
    cleanup_client (fuel + 1) env w cid =
      ({ w with forced_cleanups := eraseNat w.forced_cleanups cid
                clients := eraseId w.clients cid },
       [Effect.closeFd cid]) := by
  simp only [cleanup_client]
  rw [hg]
  simp only [ht]
  simp only [hvm]

/-- `cleanup_client` on a backup coordinator whose registry target id no
longer resolves to a live client: only close and free. -/
theorem cleanup_client_vzdump_gone (fuel : Nat) (env : Env) (w : World)
    (cid vmcid : Nat) (c : Client) (hg : w.getClient cid = some c)
    (ht : c.type = .CLIENT_VZDUMP)
    (hvm : lookupVm w.vm_clients c.vzdump_vmid = some vmcid)
    (hvc : w.getClient vmcid = none) :
    cleanup_client (fuel + 1) env w cid =
      ({ w with forced_cleanups := eraseNat w.forced_cleanups cid
                clients := eraseId w.clients cid },
       [Effect.closeFd cid]) := by
  simp only [cleanup_client]
  rw [hg]
  simp only [ht]
  simp only [hvm]
  simp only [hvc]

/-- C3 counterexample: a failed write of the graceful `quit` command in
`terminate_client` does not tear the connection down: the client object
survives (no socket close), and the daemon instead falls back to sending
SIGTERM to the process. -/
theorem C3_counterexample :
    ((terminate_client envNoWrite (wOf (cQemu .STATE_IDLE qs0)) 1).1.getClient
      1).isSome = true ∧
    (terminate_client envNoWrite (wOf (cQemu .STATE_IDLE qs0)) 1).2 =
      [Effect.sigterm 42] ∧
    Effect.closeFd 1 ∉
      (terminate_client envNoWrite (wOf (cQemu .STATE_IDLE qs0)) 1).2 := by
  refine ⟨by decide, by decide, by decide⟩

/-- C3 (amended): a failed write of a command sent through
`send_qmp_cmd` — the handshake answer and the status query — tears the
connection down immediately (socket closed, client freed, failure
logged); a failed write of the graceful quit command in
`terminate_client` does not tear the connection down but falls back to
SIGTERM of the process. -/
theorem C3_failed_write (fuel : Nat) (env : Env) (w : World) (cid : Nat)
    (cmd : QmpCmd) (hnd : (w.clients.map Prod.fst).Nodup)
    (hw : env.writeOk cid = false)
    (hsome : (w.getClient cid).isSome = true) :
    ((send_qmp_cmd (fuel + 2) env w cid cmd).1.getClient cid = none ∧
     Effect.closeFd cid ∈ (send_qmp_cmd (fuel + 2) env w cid cmd).2 ∧
     Effect.log "cannot send QMP message" ∈
       (send_qmp_cmd (fuel + 2) env w cid cmd).2) ∧
    (∀ c, w.getClient cid = some c →
      ¬(env.pidfd_of c.pid < 0 ∧ env.pidfd_errno c.pid = ESRCH) →
      ((terminate_client env w cid).1.getClient cid).isSome = true ∧
      (terminate_client env w cid).2 = [Effect.sigterm c.pid]) := by
  constructor
  · have hrm := cleanup_client_removes (fuel) env w cid hnd hsome
    have hsend : send_qmp_cmd (fuel + 2) env w cid cmd =
        ((cleanup_client (fuel + 1) env w cid).1,
         Effect.log "cannot send QMP message" ::
           (cleanup_client (fuel + 1) env w cid).2) := by
      simp only [send_qmp_cmd]
      rw [hw]
      rcases hcc : cleanup_client (fuel + 1) env w cid with ⟨w1, es1⟩
      simp
    rw [hsend]
    exact ⟨hrm.1, by simp [hrm.2], by simp⟩
  · intro c hc hpf
    rw [terminate_client_alive env w cid c hc hpf]
    constructor
    · have : ((w.setClient cid
          { c with state := .STATE_TERMINATING, pidfd := env.pidfd_of c.pid,
                   timeout := w.now + w.kill_timeout }).getClient cid).isSome
          = true := by
        rw [getClient_setClient_self w cid _ c hc]
        rfl
      exact this
    · simp [hw]

/-- Witness for C3 at concrete inputs: the handshake answer fails to
write and connection 1 is torn down. -/
theorem C3_witness :
    (send_qmp_cmd 2 envNoWrite (wOf (cQemu .STATE_IDLE qs0)) 1
      .qmp_capabilities).1.getClient 1 = none ∧
    Effect.closeFd 1 ∈
      (send_qmp_cmd 2 envNoWrite (wOf (cQemu .STATE_IDLE qs0)) 1
        .qmp_capabilities).2 :=
  ⟨((C3_failed_write 0 envNoWrite (wOf (cQemu .STATE_IDLE qs0)) 1
      .qmp_capabilities (by decide) rfl rfl).1).1,
   ((C3_failed_write 0 envNoWrite (wOf (cQemu .STATE_IDLE qs0)) 1
      .qmp_capabilities (by decide) rfl rfl).1).2.1⟩

/-! ### C7 -/

/-- C7: at every connection teardown the external cleanup action is
launched exactly once if and only if the role is CLIENT_QEMU (never for
CLIENT_NONE or CLIENT_VZDUMP), with the VM identity and the two flags —
1 when a shutdown event was observed, else 0, and 1 when the last
shutdown event indicated guest origin, else 0 — as its positional
arguments.  (Deliverable writes and a successful fork are assumed; a
failed write during a coordinator teardown would nest the teardown of
the target VM connection, whose own cleanup action belongs to that
teardown.) -/
theorem C7_cleanup_exec (fuel : Nat) (env : Env) (w : World) (cid : Nat)
    (c : Client) (hg : w.getClient cid = some c)
    (hwAll : ∀ i, env.writeOk i = true) (hfork : env.forkOk = true) :
    (cleanup_client (fuel + 3) env w cid).2.filter isExecEffect =
      (if c.type = .CLIENT_QEMU then
        [Effect.execCleanup c.qemu.vmid
          (if c.qemu.graceful then "1" else "0")
          (if c.qemu.guest then "1" else "0")]
       else []) := by
  cases htype : c.type with
  | CLIENT_QEMU =>
    rw [show fuel + 3 = fuel + 2 + 1 from rfl,
        cleanup_client_qemu (fuel + 2) env w cid c hg htype hfork]
    simp [isExecEffect]
  | CLIENT_NONE =>
    rw [show fuel + 3 = fuel + 2 + 1 from rfl,
        cleanup_client_none (fuel + 2) env w cid c hg htype]
    simp [isExecEffect]
  | CLIENT_VZDUMP =>
    cases hvm : lookupVm w.vm_clients c.vzdump_vmid with
    | none =>
      rw [show fuel + 3 = fuel + 2 + 1 from rfl,
          cleanup_client_vzdump_unreg (fuel + 2) env w cid c hg htype hvm]
      simp [isExecEffect]
    | some vmcid =>
      cases hvc : w.getClient vmcid with
      | none =>
        rw [show fuel + 3 = fuel + 2 + 1 from rfl,
            cleanup_client_vzdump_gone (fuel + 2) env w cid vmcid c hg htype
              hvm hvc]
        simp [isExecEffect]
      | some vmc =>
        rw [show fuel + 3 = fuel + 2 + 1 from rfl,
            cleanup_client_vzdump (fuel + 2) env w cid vmcid c vmc hg htype
              hvm hvc]
        have hg1 := getClient_setClient_self w vmcid
          { vmc with qemu := { vmc.qemu with backup := false } } vmc hvc
        by_cases hs : vmc.state = .STATE_IDLE
        · rw [terminate_check_idle (fuel + 2) (by omega) env _ vmcid _ hg1 hs
            (hwAll vmcid)]
          simp [isExecEffect]
        · rw [terminate_check_queue (fuel + 2) (by omega) env _ vmcid _ hg1 hs]
          simp [isExecEffect]

/-- Witness for C7 at concrete inputs: tearing down the registered VM
connection 1 (graceful shutdown observed, guest initiated) launches
exactly `qm cleanup 100 1 1`. -/
theorem C7_witness :
    (cleanup_client 3 env0
      (wOf (cQemu .STATE_TERMINATING
        { qs0 with graceful := true, guest := true })) 1).2.filter
      isExecEffect = [Effect.execCleanup "100" "1" "1"] :=
  C7_cleanup_exec 0 env0
    (wOf (cQemu .STATE_TERMINATING { qs0 with graceful := true, guest := true }))
    1 (cQemu .STATE_TERMINATING { qs0 with graceful := true, guest := true })
    rfl (fun _ => rfl) rfl

/-! ### C8 -/

/-- C8: tearing down a BackupCoordinator whose target VM is still
registered clears the target VM backup flag and re-runs its termination
check (in STATE_IDLE this sends a fresh status query; otherwise the
recheck is queued); and while the coordinator is registered, an inactive
status response for the backed-up VM causes no termination — the state
simply returns to STATE_IDLE with no effect. -/
theorem C8_backup_defer :
    (∀ fuel env w cid vmcid c vmc, w.getClient cid = some c →
      c.type = .CLIENT_VZDUMP →
      lookupVm w.vm_clients c.vzdump_vmid = some vmcid → vmcid ≠ cid →
      w.getClient vmcid = some vmc → (∀ i, env.writeOk i = true) →
      ∃ vmc', (cleanup_client (fuel + 3) env w cid).1.getClient vmcid =
          some vmc' ∧
        vmc'.qemu.backup = false ∧
        (vmc.state = .STATE_IDLE →
          vmc'.state = .STATE_EXPECT_STATUS_RESP ∧
          vmc'.qemu.term_check_queued = false ∧
          Effect.qmpWrite vmcid .query_status ∈
            (cleanup_client (fuel + 3) env w cid).2) ∧
        (vmc.state ≠ .STATE_IDLE →
          vmc'.state = vmc.state ∧ vmc'.qemu.term_check_queued = true)) ∧
    (∀ fuel env w cid c data, w.getClient cid = some c →
      c.state = .STATE_EXPECT_STATUS_RESP → c.qemu.backup = true →
      c.qemu.term_check_queued = false → status_is_active data = false →
      handle_qmp_return (fuel + 2) env w cid data false =
        (w.setClient cid { c with state := .STATE_IDLE }, [])) := by
  constructor
  · intro fuel env w cid vmcid c vmc hg ht hvm hne hvc hwAll
    rw [show fuel + 3 = fuel + 2 + 1 from rfl,
        cleanup_client_vzdump (fuel + 2) env w cid vmcid c vmc hg ht hvm hvc]
    have hg1 := getClient_setClient_self w vmcid
      { vmc with qemu := { vmc.qemu with backup := false } } vmc hvc
    by_cases hs : vmc.state = .STATE_IDLE
    · rw [terminate_check_idle (fuel + 2) (by omega) env _ vmcid _ hg1 hs
        (hwAll vmcid)]
      refine ⟨{ vmc with
                qemu := { vmc.qemu with
                          term_check_queued := false
                          backup := false }
                state := .STATE_EXPECT_STATUS_RESP },
              ?_, rfl, fun _ => ⟨rfl, rfl, by simp⟩, fun hcon => absurd hs hcon⟩
      show lookupId (eraseId _ cid) vmcid = _
      rw [lookupId_eraseId_ne _ cid vmcid hne]
      show ((w.setClient vmcid _).setClient vmcid _).getClient vmcid = _
      rw [setClient_setClient]
      exact getClient_setClient_self w vmcid _ vmc hvc
    · rw [terminate_check_queue (fuel + 2) (by omega) env _ vmcid _ hg1 hs]
      refine ⟨{ vmc with
                qemu := { vmc.qemu with
                          term_check_queued := true
                          backup := false } },
              ?_, rfl, fun hcon => absurd hcon hs, fun _ => ⟨rfl, rfl⟩⟩
      show lookupId (eraseId _ cid) vmcid = _
      rw [lookupId_eraseId_ne _ cid vmcid hne]
      show ((w.setClient vmcid _).setClient vmcid _).getClient vmcid = _
      rw [setClient_setClient]
      exact getClient_setClient_self w vmcid _ vmc hvc
  · intro fuel env w cid c data hg hs hback hq hact
    have hg1 := getClient_setClient_self w cid { c with state := .STATE_IDLE }
      c hg
    have hbody : handle_qmp_return (fuel + 2) env w cid data false =
        qmp_return_out (fuel + 2) env
          (w.setClient cid { c with state := .STATE_IDLE }) cid [] := by
      simp only [handle_qmp_return]
      rw [hg]
      simp [hs, hact, hback]
    rw [hbody, qmp_return_out_no_queue _ env _ cid _ _ hg1 (by simpa using hq)]

/-- Witness for C8 at concrete inputs: the coordinator (connection 2)
disconnects; VM 100 loses its backup flag and a status query goes out. -/
theorem C8_witness :
    ∃ vmc', (cleanup_client 3 env0 wBackup 2).1.getClient 1 = some vmc' ∧
      vmc'.qemu.backup = false ∧
      vmc'.state = .STATE_EXPECT_STATUS_RESP ∧
      Effect.qmpWrite 1 .query_status ∈ (cleanup_client 3 env0 wBackup 2).2 := by
  obtain ⟨vmc', h1, h2, h3, _⟩ := (C8_backup_defer.1) 0 env0 wBackup 2 1 cVz
    (cQemu .STATE_IDLE { qs0 with backup := true }) rfl rfl rfl (by decide) rfl
    (fun _ => rfl)
  exact ⟨vmc', h1, h2, (h3 rfl).1, (h3 rfl).2.2⟩

/-! ### C4 -/

theorem eraseNat_sublist (l : List Nat) (y : Nat) :
    (eraseNat l y).Sublist l := by
  induction l with
  | nil => simp [eraseNat]
  | cons hd tl ih =>
    by_cases hy : hd = y
    · simp only [eraseNat, if_pos hy]
      exact List.sublist_cons_self hd tl
    · simp only [eraseNat, if_neg hy]
      exact ih.cons₂ hd

theorem mem_of_mem_eraseNat (l : List Nat) (x y : Nat)
    (h : x ∈ eraseNat l y) : x ∈ l :=
  (eraseNat_sublist l y).mem h

/-- A `sigkill` call on entry `i` does not touch the client object of a
different id and does not change its pending membership. -/
theorem sigkill_frame (t : Nat) (w : World) (i cid : Nat) (hne : i ≠ cid) :
    (sigkill t w i).1.getClient cid = w.getClient cid ∧
    ((cid ∈ (sigkill t w i).1.forced_cleanups) ↔
      cid ∈ w.forced_cleanups) := by
  simp only [sigkill]
  cases hgi : w.getClient i with
  | none => exact ⟨rfl, Iff.rfl⟩
  | some ci =>
    simp only []
    by_cases hskip : ci.timeout ≠ 0 ∧ t < ci.timeout
    · rw [if_pos hskip]
      exact ⟨rfl, Iff.rfl⟩
    · rw [if_neg hskip]
      constructor
      · show ((w.setClient i _).getClient cid) = w.getClient cid
        exact getClient_setClient_ne w i cid _ (Ne.symm hne)
      · show cid ∈ eraseNat (w.setClient i _).forced_cleanups i ↔ _
        exact mem_eraseNat_of_ne w.forced_cleanups cid i (Ne.symm hne)

/-- Any `sigkill` call preserves absence from the pending list and key
uniqueness of the pending list. -/
theorem sigkill_forced_mono (t : Nat) (w : World) (i cid : Nat)
    (h : cid ∉ w.forced_cleanups) :
    cid ∉ (sigkill t w i).1.forced_cleanups := by
  simp only [sigkill]
  cases hgi : w.getClient i with
  | none => exact h
  | some ci =>
    simp only []
    by_cases hskip : ci.timeout ≠ 0 ∧ t < ci.timeout
    · rw [if_pos hskip]
      exact h
    · rw [if_neg hskip]
      intro hmem
      exact h (mem_of_mem_eraseNat _ cid i hmem)

theorem sigkill_forced_nodup (t : Nat) (w : World) (i : Nat)
    (h : w.forced_cleanups.Nodup) :
    (sigkill t w i).1.forced_cleanups.Nodup := by
  simp only [sigkill]
  cases hgi : w.getClient i with
  | none => exact h
  | some ci =>
    simp only []
    by_cases hskip : ci.timeout ≠ 0 ∧ t < ci.timeout
    · rw [if_pos hskip]
      exact h
    · rw [if_neg hskip]
      exact (eraseNat_sublist _ i).nodup h

/-- `sigkill` on an entry whose own deadline has not elapsed is a no-op. -/
theorem sigkill_self_skip (t : Nat) (w : World) (cid : Nat) (c : Client)
    (hg : w.getClient cid = some c) (hto : c.timeout ≠ 0)
    (hlt : t < c.timeout) : sigkill t w cid = (w, []) := by
  simp only [sigkill]
  rw [hg]
  simp [hto, hlt]

/-- `sigkill` on an entry whose deadline has elapsed (or was cleared)
kills it, zeroes the deadline and unlinks the entry. -/
theorem sigkill_self_fire (t : Nat) (w : World) (cid : Nat) (c : Client)
    (hg : w.getClient cid = some c)
    (hfire : ¬(c.timeout ≠ 0 ∧ t < c.timeout)) :
    (sigkill t w cid).2 = [killEffectFor c] ∧
    ((sigkill t w cid).1.getClient cid).map Client.timeout = some 0 ∧
    (sigkill t w cid).1.forced_cleanups = eraseNat w.forced_cleanups cid := by
  simp only [sigkill]
  rw [hg]
  simp only []
  rw [if_neg hfire]
  by_cases hp : c.pidfd > 0
  · rw [if_pos hp]
    refine ⟨by simp [killEffectFor, hp], ?_, rfl⟩
    show Option.map Client.timeout ((w.setClient cid _).getClient cid) = some 0
    rw [getClient_setClient_self w cid _ c hg]
    rfl
  · rw [if_neg hp]
    refine ⟨by simp [killEffectFor, hp], ?_, rfl⟩
    show Option.map Client.timeout ((w.setClient cid _).getClient cid) = some 0
    rw [getClient_setClient_self w cid _ c hg]
    rfl

/-- A sweep over ids not containing `cid` leaves that client and its
pending membership alone. -/
theorem sweep_frame (l : List Nat) (t : Nat) (w : World) (cid : Nat)
    (h : cid ∉ l) :
    (sweep t w l).1.getClient cid = w.getClient cid ∧
    ((cid ∈ (sweep t w l).1.forced_cleanups) ↔ cid ∈ w.forced_cleanups) := by
  induction l generalizing w with
  | nil => exact ⟨rfl, Iff.rfl⟩
  | cons i rest ih =>
    simp only [List.mem_cons] at h
    push_neg at h
    have hf := sigkill_frame t w i cid (fun he => h.1 he.symm)
    have hrec := ih (sigkill t w i).1 h.2
    simp only [sweep]
    rcases hsk : sigkill t w i with ⟨w1, es1⟩
    rcases hsw : sweep t w1 rest with ⟨w2, es2⟩
    rw [hsk] at hf
    rw [hsk, hsw] at hrec
    exact ⟨hrec.1.trans hf.1, hrec.2.trans hf.2⟩

/-- Once unlinked, an entry never reappears during the sweep. -/
theorem sweep_forced_mono (l : List Nat) (t : Nat) (w : World) (cid : Nat)
    (h : cid ∉ w.forced_cleanups) :
    cid ∉ (sweep t w l).1.forced_cleanups := by
  induction l generalizing w with
  | nil => exact h
  | cons i rest ih =>
    simp only [sweep]
    rcases hsk : sigkill t w i with ⟨w1, es1⟩
    rcases hsw : sweep t w1 rest with ⟨w2, es2⟩
    have h1 := sigkill_forced_mono t w i cid h
    rw [hsk] at h1
    have := ih w1 h1
    rw [hsw] at this
    exact this

/-- A zeroed deadline stays zeroed for the rest of the sweep. -/
theorem sweep_timeout_zero (l : List Nat) (t : Nat) (w : World) (cid : Nat)
    (h : (w.getClient cid).map Client.timeout = some 0) :
    ((sweep t w l).1.getClient cid).map Client.timeout = some 0 := by
  induction l generalizing w with
  | nil => exact h
  | cons i rest ih =>
    simp only [sweep]
    rcases hsk : sigkill t w i with ⟨w1, es1⟩
    rcases hsw : sweep t w1 rest with ⟨w2, es2⟩
    have h1 : (w1.getClient cid).map Client.timeout = some 0 := by
      by_cases hi : i = cid
      · subst hi
        rcases hoc : w.getClient i with _ | c
        · rw [hoc] at h
          simp at h
        · rw [hoc] at h
          have hc0 : c.timeout = 0 := by simpa using h
          have hfire : ¬(c.timeout ≠ 0 ∧ t < c.timeout) := by simp [hc0]
          have := (sigkill_self_fire t w i c hoc hfire).2.1
          rw [hsk] at this
          exact this
      · have := (sigkill_frame t w i cid hi).1
        rw [hsk] at this
        rw [this]
        exact h
    have := ih w1 h1
    rw [hsw] at this
    exact this

/-- Per-entry behaviour of the sweep: an entry with a recorded deadline
is untouched while its own deadline lies in the future, and is killed
and unlinked as soon as the sweep runs at or after its deadline. -/
theorem sweep_spec (l : List Nat) (t : Nat) (w : World) (cid : Nat)
    (c : Client) (hmem : cid ∈ l) (hg : w.getClient cid = some c)
    (hto : c.timeout ≠ 0) (hnd : w.forced_cleanups.Nodup) :
    (t < c.timeout →
      (sweep t w l).1.getClient cid = some c ∧
      ((cid ∈ (sweep t w l).1.forced_cleanups) ↔ cid ∈ w.forced_cleanups)) ∧
    (c.timeout ≤ t →
      killEffectFor c ∈ (sweep t w l).2 ∧
      cid ∉ (sweep t w l).1.forced_cleanups ∧
      ((sweep t w l).1.getClient cid).map Client.timeout = some 0) := by
  induction l generalizing w with
  | nil => cases hmem
  | cons i rest ih =>
    simp only [sweep]
    rcases hsk : sigkill t w i with ⟨w1, es1⟩
    rcases hsw : sweep t w1 rest with ⟨w2, es2⟩
    by_cases hi : i = cid
    · subst hi
      constructor
      · intro hlt
        have hskip := sigkill_self_skip t w i c hg hto hlt
        rw [hskip] at hsk
        obtain ⟨rfl, rfl⟩ : w = w1 ∧ es1 = ([] : List Effect) := by
          constructor
          · exact congrArg Prod.fst hsk
          · exact (congrArg Prod.snd hsk).symm
        by_cases hmr : i ∈ rest
        · have := (ih w hmr hg hnd).1 hlt
          rw [hsw] at this
          exact this
        · have := sweep_frame rest t w i hmr
          rw [hsw] at this
          exact ⟨this.1.trans hg, this.2⟩
      · intro hge
        have hfire : ¬(c.timeout ≠ 0 ∧ t < c.timeout) := by
          push_neg
          intro _
          omega
        have hf := sigkill_self_fire t w i c hg hfire
        rw [hsk] at hf
        have hout : i ∉ w1.forced_cleanups := by
          rw [hf.2.2]
          exact not_mem_eraseNat_self w.forced_cleanups i hnd
        have h2 := sweep_forced_mono rest t w1 i hout
        rw [hsw] at h2
        have h3 := sweep_timeout_zero rest t w1 i hf.2.1
        rw [hsw] at h3
        have he1 : es1 = [killEffectFor c] := hf.1
        exact ⟨by simp [he1], h2, h3⟩
    · have hmr : cid ∈ rest := by
        rcases List.mem_cons.mp hmem with he | hr
        · exact absurd he.symm hi
        · exact hr
      have hfr := sigkill_frame t w i cid hi
      rw [hsk] at hfr
      have hnd1 := sigkill_forced_nodup t w i hnd
      rw [hsk] at hnd1
      have hrec := ih w1 hmr (hfr.1.trans hg) hnd1
      rw [hsw] at hrec
      constructor
      · intro hlt
        exact ⟨(hrec.1 hlt).1, ((hrec.1 hlt).2).trans hfr.2⟩
      · intro hge
        exact ⟨by simp [(hrec.2 hge).1], (hrec.2 hge).2.1, (hrec.2 hge).2.2⟩

/-- C4: every escalation records its own deadline, equal to the time
escalation begins plus the configured kill timeout, in the escalating
client itself; and the sweep force-kills a pending entry exactly when
that entry's own deadline has elapsed — at or after, never before — so
concurrent escalations expire independently of arrival order (the sweep
conclusion holds per entry of an arbitrary pending list). -/
theorem C4_deadlines :
    (∀ env w cid c, w.getClient cid = some c →
      ¬(env.pidfd_of c.pid < 0 ∧ env.pidfd_errno c.pid = ESRCH) →
      0 < w.kill_timeout →
      ∃ c', (terminate_client env w cid).1.getClient cid = some c' ∧
        c'.timeout = w.now + w.kill_timeout ∧ c'.timeout ≠ 0 ∧
        (terminate_client env w cid).1.forced_cleanups =
          cid :: w.forced_cleanups) ∧
    (∀ t w cid c, cid ∈ w.forced_cleanups → w.forced_cleanups.Nodup →
      w.getClient cid = some c → c.timeout ≠ 0 →
      (t < c.timeout →
        (handle_forced_cleanup t w).1.getClient cid = some c ∧
        cid ∈ (handle_forced_cleanup t w).1.forced_cleanups) ∧
      (c.timeout ≤ t →
        killEffectFor c ∈ (handle_forced_cleanup t w).2 ∧
        cid ∉ (handle_forced_cleanup t w).1.forced_cleanups)) := by
  constructor
  · intro env w cid c hg hpf hkt
    rw [terminate_client_alive env w cid c hg hpf]
    refine ⟨{ c with state := .STATE_TERMINATING
                     pidfd := env.pidfd_of c.pid
                     timeout := w.now + w.kill_timeout },
            ?_, rfl, by simp; omega, rfl⟩
    show (w.setClient cid _).getClient cid = _
    exact getClient_setClient_self w cid _ c hg
  · intro t w cid c hmem hnd hg hto
    have hlen : 0 < w.forced_cleanups.length :=
      List.length_pos.mpr (List.ne_nil_of_mem hmem)
    have hsp := sweep_spec w.forced_cleanups t w cid c hmem hg hto hnd
    simp only [handle_forced_cleanup, if_pos hlen]
    rcases hsw : sweep t w w.forced_cleanups with ⟨w1, es⟩
    rw [hsw] at hsp
    constructor
    · intro hlt
      exact ⟨(hsp.1 hlt).1, ((hsp.1 hlt).2).mpr hmem⟩
    · intro hge
      exact ⟨(hsp.2 hge).1, (hsp.2 hge).2.1⟩

/-- Witness for C4 at concrete inputs: escalation at time 1000 with a
60 second kill timeout records deadline 1060; the sweep at 1059 leaves
the entry untouched, the sweep at 1060 SIGKILLs it through the pidfd and
unlinks it. -/
theorem C4_witness :
    (∃ c', (terminate_client env0 (wOf (cQemu .STATE_EXPECT_STATUS_RESP qs0))
        1).1.getClient 1 = some c' ∧ c'.timeout = 1060 ∧ c'.timeout ≠ 0 ∧
      (terminate_client env0 (wOf (cQemu .STATE_EXPECT_STATUS_RESP qs0))
        1).1.forced_cleanups = [1]) ∧
    ((handle_forced_cleanup 1059 wPending).1.getClient 1 = some cPending ∧
      1 ∈ (handle_forced_cleanup 1059 wPending).1.forced_cleanups) ∧
    (killEffectFor cPending ∈ (handle_forced_cleanup 1060 wPending).2 ∧
      1 ∉ (handle_forced_cleanup 1060 wPending).1.forced_cleanups) :=
  ⟨C4_deadlines.1 env0 (wOf (cQemu .STATE_EXPECT_STATUS_RESP qs0)) 1
      (cQemu .STATE_EXPECT_STATUS_RESP qs0) rfl (by decide) (by decide),
   (C4_deadlines.2 1059 wPending 1 cPending (by decide) (by decide) rfl
      (by decide)).1 (by decide),
   (C4_deadlines.2 1060 wPending 1 cPending (by decide) (by decide) rfl
      (by decide)).2 (by decide)⟩

/-! ### C10 -/

/-- C10 counterexample: a SHUTDOWN event whose payload carries a
non-boolean `guest` member (here the integer 0) does not leave the
guest-initiated flag at its previous value: the member is present, so
the code overwrites the flag with the json-c boolean coercion of the
value, here changing it from 1 to 0. -/
theorem C10_counterexample :
    (cQemu .STATE_IDLE { qs0 with guest := true }).qemu.guest = true ∧
    (((handle_qmp_event 2 env0
        (wOf (cQemu .STATE_IDLE { qs0 with guest := true })) 1
        shutdownGuestInt).1.getClient 1).map (fun c => c.qemu.guest)) =
      some false := by
  constructor
  · decide
  · decide

/-- C10 (amended): handling a SHUTDOWN event sets the graceful flag to
1, and the guest flag is left at its previous value exactly when the
payload carries no `guest` member under `data`; a `guest` member of any
type (boolean or not) overwrites the flag with its json-c boolean
coercion.  The remaining payload fields (VM identity, backup flag) are
untouched. -/
theorem C10_guest_frame (fuel : Nat) (env : Env) (w : World) (cid : Nat)
    (c : Client) (obj ev : JValue) (hg : w.getClient cid = some c)
    (hnt : c.state ≠ .STATE_TERMINATING) (hw : env.writeOk cid = true)
    (hev : json_object_object_get_ex obj "event" = some ev)
    (hshut : json_object_get_string ev = "SHUTDOWN") :
    ∃ c', (handle_qmp_event (fuel + 2) env w cid obj).1.getClient cid = some c' ∧
      c'.qemu.graceful = true ∧
      c'.qemu.guest = shutdown_guest_value obj c.qemu.guest ∧
      (json_object_object_get_ex obj "data" = none → c'.qemu.guest = c.qemu.guest) ∧
      (∀ d, json_object_object_get_ex obj "data" = some d →
        json_object_object_get_ex d "guest" = none → c'.qemu.guest = c.qemu.guest) ∧
      (∀ d g, json_object_object_get_ex obj "data" = some d →
        json_object_object_get_ex d "guest" = some g →
        c'.qemu.guest = json_object_get_boolean g) ∧
      c'.qemu.vmid = c.qemu.vmid ∧ c'.qemu.backup = c.qemu.backup := by
  have hev1 : handle_qmp_event (fuel + 2) env w cid obj =
      terminate_check (fuel + 2) env
        (w.setClient cid
          { c with
            qemu := { c.qemu with
                      graceful := true
                      guest := shutdown_guest_value obj c.qemu.guest } }) cid := by
    simp only [handle_qmp_event]
    rw [hg, hev]
    simp [hnt, hshut]
  have hg1 := getClient_setClient_self w cid
    { c with
      qemu := { c.qemu with
                graceful := true
                guest := shutdown_guest_value obj c.qemu.guest } } c hg
  have hmain : ∃ c',
      (handle_qmp_event (fuel + 2) env w cid obj).1.getClient cid = some c' ∧
      c'.qemu.graceful = true ∧
      c'.qemu.guest = shutdown_guest_value obj c.qemu.guest ∧
      c'.qemu.vmid = c.qemu.vmid ∧ c'.qemu.backup = c.qemu.backup := by
    by_cases hs : c.state = .STATE_IDLE
    · rw [hev1, terminate_check_idle (fuel + 2) (by omega) env _ cid _ hg1 hs hw]
      exact ⟨_, getClient_setClient_self _ cid _ _ hg1, rfl, rfl, rfl, rfl⟩
    · rw [hev1, terminate_check_queue (fuel + 2) (by omega) env _ cid _ hg1 hs]
      exact ⟨_, getClient_setClient_self _ cid _ _ hg1, rfl, rfl, rfl, rfl⟩
  obtain ⟨c', hgc, hgr, hgu, hvm, hbk⟩ := hmain
  refine ⟨c', hgc, hgr, hgu, ?_, ?_, ?_, hvm, hbk⟩
  · intro hd
    rw [hgu]
    simp [shutdown_guest_value, hd]
  · intro d hd hguest
    rw [hgu]
    simp [shutdown_guest_value, hd, hguest]
  · intro d g hd hguest
    rw [hgu]
    simp [shutdown_guest_value, hd, hguest]

/-! ### C2 -/

/-- C2 counterexample: when connection 2 handshakes as a VM whose
identity 100 is already registered to the live connection 1, the insert
is not a no-op: `g_hash_table_insert` replaces the value, so the
registry afterwards maps identity 100 to connection 2 (the collision is
logged). -/
theorem C2_counterexample :
    lookupVm wTwo.vm_clients "100" = some 1 ∧
    lookupVm (handle_qmp_handshake 2 env0 wTwo 2).1.vm_clients "100" = some 2 ∧
    lookupVm (handle_qmp_handshake 2 env0 wTwo 2).1.vm_clients "100" ≠ some 1 ∧
    Effect.log "could not insert client into VMID table" ∈
      (handle_qmp_handshake 2 env0 wTwo 2).2 := by
  refine ⟨by decide, by decide, by decide, by decide⟩

/-- C2 (amended): a registry insert for a VM identity that already has a
live entry replaces the existing mapping with the new connection and
logs the collision; every other identity keeps its mapping, and the
registry still never holds more than one live entry per VM identity. -/
theorem C2_registry_insert (fuel : Nat) (env : Env) (w : World) (cid : Nat)
    (c : Client) (hg : w.getClient cid = some c)
    (hw : env.writeOk cid = true) (hv : env.vmid_of_pid c.pid ≠ 0)
    (hlen : (toString (env.vmid_of_pid c.pid)).length < 16) :
    lookupVm (handle_qmp_handshake (fuel + 1) env w cid).1.vm_clients
      (toString (env.vmid_of_pid c.pid)) = some cid ∧
    (∀ k, k ≠ toString (env.vmid_of_pid c.pid) →
      lookupVm (handle_qmp_handshake (fuel + 1) env w cid).1.vm_clients k =
        lookupVm w.vm_clients k) ∧
    ((w.vm_clients.map Prod.fst).Nodup →
      (((handle_qmp_handshake (fuel + 1) env w cid).1.vm_clients.map
        Prod.fst)).Nodup) ∧
    (lookupVm w.vm_clients (toString (env.vmid_of_pid c.pid)) ≠ none →
      Effect.log "could not insert client into VMID table" ∈
        (handle_qmp_handshake (fuel + 1) env w cid).2) := by
  have hcond : ¬(env.vmid_of_pid c.pid = 0 ∨
      16 ≤ (toString (env.vmid_of_pid c.pid)).length) := by
    push_neg
    exact ⟨hv, by omega⟩
  have hspec := g_hash_table_insert_spec w.vm_clients
    (toString (env.vmid_of_pid c.pid)) cid
  have hbody : handle_qmp_handshake (fuel + 1) env w cid =
      ({ w.setClient cid
          { c with
            qemu := { c.qemu with
                      vmid := (toString (env.vmid_of_pid c.pid)).take 15 }
            type := .CLIENT_QEMU } with
         vm_clients := (g_hash_table_insert w.vm_clients
           (toString (env.vmid_of_pid c.pid)) cid).1 },
       (if (g_hash_table_insert w.vm_clients
            (toString (env.vmid_of_pid c.pid)) cid).2 then []
        else [Effect.log "could not insert client into VMID table"]) ++
       [Effect.qmpWrite cid .qmp_capabilities]) := by
    simp only [handle_qmp_handshake]
    rw [hg]
    simp only [hcond, if_false]
    rcases hins : g_hash_table_insert w.vm_clients
      (toString (env.vmid_of_pid c.pid)) cid with ⟨tbl, fresh⟩
    simp only [hins]
    rw [send_qmp_cmd_ok (fuel + 1) (by omega) env _ cid _ hw]
  rw [hbody]
  refine ⟨hspec.1, fun k hk => hspec.2.1 k hk, fun hd => hspec.2.2.2 hd, ?_⟩
  intro hcol
  have hfresh : (g_hash_table_insert w.vm_clients
      (toString (env.vmid_of_pid c.pid)) cid).2 = false :=
    (hspec.2.2.1).mpr hcol
  simp [hfresh]

/-- Witness for C2 at concrete inputs: a fresh handshake for an
unregistered identity maps it to the connection and keeps uniqueness. -/
theorem C2_witness :
    lookupVm (handle_qmp_handshake 1 env0 (wOf (newClient 55)) 1).1.vm_clients
      "100" = some 1 ∧
    (((wOf (newClient 55)).vm_clients.map Prod.fst).Nodup →
      (((handle_qmp_handshake 1 env0 (wOf (newClient 55)) 1).1.vm_clients.map
        Prod.fst)).Nodup) :=
  ⟨(C2_registry_insert 0 env0 (wOf (newClient 55)) 1 (newClient 55) rfl rfl
      (by decide) (by decide)).1,
   (C2_registry_insert 0 env0 (wOf (newClient 55)) 1 (newClient 55) rfl rfl
      (by decide) (by decide)).2.2.1⟩

/-- Witness for C10 at concrete inputs: a SHUTDOWN event without any
`data` member leaves a previously set guest flag at 1 and sets
graceful. -/
theorem C10_witness :
    ∃ c', (handle_qmp_event 2 env0
        (wOf (cQemu .STATE_IDLE { qs0 with guest := true })) 1
        shutdownMsg).1.getClient 1 = some c' ∧
      c'.qemu.graceful = true ∧
      c'.qemu.guest = shutdown_guest_value shutdownMsg true := by
  obtain ⟨c', h1, h2, h3, _⟩ := C10_guest_frame 0 env0
    (wOf (cQemu .STATE_IDLE { qs0 with guest := true })) 1
    (cQemu .STATE_IDLE { qs0 with guest := true }) shutdownMsg
    (.jstr "SHUTDOWN") rfl (by decide) rfl rfl rfl
  exact ⟨c', h1, h2, h3⟩

/-! ### C9 -/

theorem pre_take (x : List Nat) (n : Nat) : pre (x.take n) x :=
  ⟨x.drop n, List.take_append_drop n x⟩

theorem pre_length (b x : List Nat) (h : pre b x) : b.length ≤ x.length := by
  obtain ⟨t, ht⟩ := h
  rw [← ht]
  simp

theorem pre_eq_take (b x : List Nat) (h : pre b x) : b = x.take b.length := by
  obtain ⟨t, ht⟩ := h
  rw [← ht, List.take_append_eq_append_take]
  simp

/-- Unfolding of the parser contract on a nonempty stream. -/
theorem segOk_head (parse : List Nat → ParseResult) (m : List Nat)
    (rest : List (List Nat)) (h : segOk parse (m :: rest) = true) :
    m ≠ [] ∧ m.length ≤ QMP_BUF_SIZE ∧
    (∀ k, 0 < k → k ≤ (m :: rest).flatten.length →
      parse (((m :: rest).flatten).take k) =
        if m.length ≤ k then ParseResult.success m.length
        else ParseResult.cont) ∧
    segOk parse rest = true := by
  simp only [segOk, Bool.and_eq_true, decide_eq_true_eq, List.all_eq_true,
    List.mem_range, Bool.or_eq_true] at h
  obtain ⟨⟨⟨h1, h2⟩, h3⟩, h4⟩ := h
  refine ⟨h1, h2, ?_, h4⟩
  intro k hk hkle
  have h5 := h3 k (by omega)
  rcases h5 with h5 | h5
  · omega
  · exact h5

theorem MidMsg_nil (parse : List Nat → ParseResult)
    (rest : List (List Nat)) (hseg : segOk parse rest = true) :
    MidMsg [] rest := by
  cases rest with
  | nil => exact rfl
  | cons m r =>
    refine ⟨⟨m, rfl⟩, ?_⟩
    intro he
    exact (segOk_head parse m r hseg).1 he.symm

/-- One pass of the `handle_client` parse loop over a buffer that is a
prefix of the remaining well-formed stream: the loop dispatches exactly
the fully buffered messages, in order, shifting each one out of the
buffer, and leaves the strict remainder of the next message buffered. -/
theorem parse_loop_seg (parse : List Nat → ParseResult) :
    ∀ fuel (rest : List (List Nat)) (b : List Nat),
      segOk parse rest = true → pre b rest.flatten → b.length ≤ fuel →
      ∃ done rest2 p, rest = done ++ rest2 ∧ b = done.flatten ++ p ∧
        segOk parse rest2 = true ∧ MidMsg p rest2 ∧
        parse_loop parse fuel b = (done, p) := by
  intro fuel
  induction fuel with
  | zero =>
    intro rest b hseg hpre hlen
    have hb : b = [] := List.eq_nil_of_length_eq_zero (Nat.le_zero.mp hlen)
    subst hb
    exact ⟨[], rest, [], rfl, rfl, hseg, MidMsg_nil parse rest hseg,
           by simp [parse_loop]⟩
  | succ n ih =>
    intro rest b hseg hpre hlen
    by_cases hb : b = []
    · subst hb
      exact ⟨[], rest, [], rfl, rfl, hseg, MidMsg_nil parse rest hseg,
             by simp [parse_loop]⟩
    · cases rest with
      | nil =>
        exfalso
        obtain ⟨t, ht⟩ := hpre
        simp at ht
        exact hb ht.1
      | cons m rest2 =>
        obtain ⟨hm_ne, hm_le, hpk, hseg2⟩ := segOk_head parse m rest2 hseg
        have hm_pos : 0 < m.length := List.length_pos.mpr hm_ne
        have hbpos : 0 < b.length := List.length_pos.mpr hb
        have hble := pre_length b _ hpre
        have hparse : parse b =
            if m.length ≤ b.length then ParseResult.success m.length
            else ParseResult.cont := by
          have hp1 := hpk b.length hbpos hble
          rw [← pre_eq_take b _ hpre] at hp1
          exact hp1
        have hflat : (m :: rest2).flatten = m ++ rest2.flatten := by simp
        by_cases hlenm : m.length ≤ b.length
        · have hparse2 : parse b = ParseResult.success m.length := by
            rw [hparse, if_pos hlenm]
          have hbm : b.take m.length = m := by
            have h1 : b.take m.length =
                ((m :: rest2).flatten.take b.length).take m.length := by
              rw [← pre_eq_take b _ hpre]
            rw [List.take_take, min_eq_left hlenm, hflat,
                List.take_append_eq_append_take,
                List.take_of_length_le le_rfl, Nat.sub_self, List.take_zero,
                List.append_nil] at h1
            exact h1
          have hsplit : b = m ++ b.drop m.length := by
            conv_lhs => rw [← List.take_append_drop m.length b]
            rw [hbm]
          have hbdrop : pre (b.drop m.length) rest2.flatten := by
            obtain ⟨t, ht⟩ := hpre
            rw [hflat] at ht
            refine ⟨t, ?_⟩
            have h2 : m ++ (b.drop m.length ++ t) = m ++ rest2.flatten := by
              rw [← List.append_assoc, ← hsplit]
              exact ht
            exact List.append_cancel_left h2
          have hlen2 : (b.drop m.length).length ≤ n := by
            simp only [List.length_drop]
            omega
          obtain ⟨done2, rest3, p, hr, hbp, hs3, hmid, hloop⟩ :=
            ih rest2 (b.drop m.length) hseg2 hbdrop hlen2
          refine ⟨m :: done2, rest3, p, by rw [List.cons_append, hr], ?_,
                  hs3, hmid, ?_⟩
          · calc b = m ++ b.drop m.length := hsplit
            _ = m ++ (done2.flatten ++ p) := by rw [hbp]
            _ = (m :: done2).flatten ++ p := by simp
          · have hbne : b.isEmpty = false := by
              cases b with
              | nil => exact absurd rfl hb
              | cons x xs => rfl
            simp only [parse_loop, hbne, Bool.false_eq_true, if_false,
              hparse2, hloop, hbm]
        · have hparse2 : parse b = ParseResult.cont := by
            rw [hparse, if_neg hlenm]
          have hblt : b.length < m.length := by omega
          have hsize : ¬(QMP_BUF_SIZE ≤ b.length) := by
            have : b.length < QMP_BUF_SIZE := by omega
            omega
          refine ⟨[], m :: rest2, b, rfl, by simp, hseg, ⟨?_, ?_⟩, ?_⟩
          · have h1 : b = m.take b.length := by
              have h2 := pre_eq_take b _ hpre
              rw [hflat, List.take_append_eq_append_take,
                  Nat.sub_eq_zero_of_le (le_of_lt hblt), List.take_zero,
                  List.append_nil] at h2
              exact h2
            rw [h1]
            exact pre_take m b.length
          · intro he
            rw [he] at hblt
            omega
          · have hbne : b.isEmpty = false := by
              cases b with
              | nil => exact absurd rfl hb
              | cons x xs => rfl
            simp only [parse_loop, hbne, Bool.false_eq_true, if_false,
              hparse2, hsize]

/-- Folding the per-read processing over a chunked delivery of the
remaining stream dispatches exactly the remaining messages and drains
the buffer. -/
theorem run_reads_seg (parse : List Nat → ParseResult) :
    ∀ (chunks : List (List Nat)) (rest : List (List Nat)) (p : List Nat),
      segOk parse rest = true → MidMsg p rest →
      p ++ chunks.flatten = rest.flatten →
      run_reads parse chunks p = (rest, []) := by
  intro chunks
  induction chunks with
  | nil =>
    intro rest p hseg hmid heq
    simp only [List.flatten_nil, List.append_nil] at heq
    cases rest with
    | nil =>
      have hp : p = [] := hmid
      subst hp
      rfl
    | cons m rest2 =>
      exfalso
      obtain ⟨hpre, hne⟩ := hmid
      have hplen := pre_length p m hpre
      have hflen : p.length = m.length + rest2.flatten.length := by
        rw [heq]
        simp
      have hpm : p = m := by
        have h1 := pre_eq_take p m hpre
        have h2 : p.length = m.length := by omega
        rw [h2, List.take_length] at h1
        exact h1
      exact hne hpm
  | cons chunk chunks2 ih =>
    intro rest p hseg hmid heq
    have hbpre : pre (p ++ chunk) rest.flatten := by
      refine ⟨chunks2.flatten, ?_⟩
      rw [List.append_assoc, ← List.flatten_cons]
      exact heq
    obtain ⟨done, rest2, p2, hr, hbp, hs2, hmid2, hloop⟩ :=
      parse_loop_seg parse (p ++ chunk).length rest (p ++ chunk) hseg hbpre
        le_rfl
    have heq2 : p2 ++ chunks2.flatten = rest2.flatten := by
      have h1 : (p ++ chunk) ++ chunks2.flatten = rest.flatten := by
        rw [List.append_assoc, ← List.flatten_cons]
        exact heq
      rw [hr, List.flatten_append, hbp, List.append_assoc] at h1
      exact List.append_cancel_left h1
    have hrec := ih rest2 p2 hs2 hmid2 heq2
    simp only [run_reads, handle_client_read, hloop, hrec, hr]

/-- C9: for every well-formed message stream delivered to a connection
across an arbitrary fragmentation into reads, the `handle_client` parse
loop dispatches exactly one message-handling call per complete top-level
message, in arrival order, shifting each complete message out of the
buffer before continuing on the remaining bytes, and ends with an empty
buffer.  The resumable parser is the json-c tokener, characterised by
the `segOk` contract; `nlparse` below realises the contract. -/
theorem C9_decoder (parse : List Nat → ParseResult)
    (msgs chunks : List (List Nat)) (hseg : segOk parse msgs = true)
    (hchunks : chunks.flatten = msgs.flatten) :
    run_reads parse chunks [] = (msgs, []) :=
  run_reads_seg parse chunks msgs [] hseg (MidMsg_nil parse msgs hseg)
    (by simpa using hchunks)

/-- Witness for C9 at concrete inputs: the two-message stream
`A\n`, `BB\n` delivered in three ragged fragments is dispatched as
exactly those two messages, in order. -/
theorem C9_witness :
    segOk nlparse [[65, 10], [66, 66, 10]] = true ∧
    run_reads nlparse [[65], [10, 66], [66, 10]] [] =
      ([[65, 10], [66, 66, 10]], []) :=
  ⟨by decide,
   C9_decoder nlparse [[65, 10], [66, 66, 10]] [[65], [10, 66], [66, 10]]
     (by decide) (by decide)⟩

end Qmeventd
